import Mathlib

/-!
Verification of the tania-signal-copier core: a shallow embedding of the
position store (`state.py`), the data model (`models.py`), the dual-TP
strategy (`strategy.py`) and the bot coordinator handlers (`bot.py`),
with theorems settling the frozen specification claims.

Conventions of the embedding:
* Python floats (prices, lot sizes) are modelled as rationals.
* Python datetimes are modelled as integer timestamps; the ISO string
  produced by `isoformat` is an exact inverse of `fromisoformat`, so the
  serialised timestamp is represented by the integer itself.
* Python dicts are modelled as association lists with dict semantics:
  update-in-place for an existing key, append for a fresh key.
* Gateway calls (`MT5Executor`) are modelled by response oracles passed
  to each handler: a function from ticket to the result the broker
  returns for that call.
* Python truthiness on optional floats (`a or b`, `if x:`) treats both
  `None` and `0.0` as falsy; the helpers `pyOrQ` and `truthyQ` mirror
  this exactly.
-/

/-- Order direction, mirroring `OrderType` in models.py. -/
inductive OrderType where
  | buy
  | sell
  | buyLimit
  | sellLimit
  | buyStop
  | sellStop
deriving DecidableEq, Repr

/-- String value of the enum member, as stored by `to_dict`. -/
def OrderType.value : OrderType → String
  | .buy => "buy"
  | .sell => "sell"
  | .buyLimit => "buy_limit"
  | .sellLimit => "sell_limit"
  | .buyStop => "buy_stop"
  | .sellStop => "sell_stop"

/-- Membership of the BUY family, as tested in `_complete_pending_position`. -/
def OrderType.isBuyFamily : OrderType → Bool
  | .buy => true
  | .buyLimit => true
  | .buyStop => true
  | _ => false

/-- Message classification, mirroring `MessageType` in models.py. -/
inductive MessageType where
  | newSignalComplete
  | newSignalIncomplete
  | modification
  | reEntry
  | profitNotification
  | closeSignal
  | partialClose
  | compoundAction
  | notTrading
deriving DecidableEq, Repr

/-- Position status, mirroring `PositionStatus` in models.py. -/
inductive PositionStatus where
  | opened
  | closed
  | pendingCompletion
deriving DecidableEq, Repr

/-- String value of the enum member, as stored by `to_dict`. -/
def PositionStatus.value : PositionStatus → String
  | .opened => "open"
  | .closed => "closed"
  | .pendingCompletion => "pending_completion"

/-- Trade role, mirroring `TradeRole` in models.py. -/
inductive TradeRole where
  | scalp
  | runner
  | single
deriving DecidableEq, Repr

/-- String value of the enum member, as stored by `to_dict`. -/
def TradeRole.value : TradeRole → String
  | .scalp => "scalp"
  | .runner => "runner"
  | .single => "single"

/-- Strategy action kinds, mirroring `TradeActionType` in models.py. -/
inductive TradeActionType where
  | close
  | moveSlToBreakeven
  | modifySl
  | modifyTp
  | verifyClosed
deriving DecidableEq, Repr

/-- Python truthiness of an optional float: `None` and `0.0` are falsy. -/
def truthyQ : Option ℚ → Bool
  | none => false
  | some x => !(x = 0)

/-- Python `a or b` on optional floats (`None` and `0.0` are falsy). -/
def pyOrQ (a b : Option ℚ) : Option ℚ :=
  if truthyQ a then a else b

/-- Python truthiness of an optional int: `None` and `0` are falsy. -/
def truthyI : Option Int → Bool
  | none => false
  | some x => !(x = 0)

/-- Python `a or b` on strings: the empty string is falsy. -/
def pyOrStr (a b : String) : String :=
  if a = "" then b else a

/-- Parsed trade signal, mirroring `TradeSignal` in models.py (fields the
core handlers consume). -/
structure TradeSignal where
  symbol : String
  order_type : OrderType
  entry_price : Option ℚ
  stop_loss : Option ℚ
  take_profits : List ℚ := []
  lot_size : Option ℚ := none
  comment : String := ""
  confidence : ℚ := 1/2
  message_type : MessageType := .newSignalComplete
  is_complete : Bool := true
  move_sl_to_entry : Bool := false
  tp_hit_number : Option Int := none
  close_percentage : Option Int := none
  new_stop_loss : Option ℚ := none
  new_take_profit : Option ℚ := none
  re_entry_price : Option ℚ := none
deriving DecidableEq, Repr

/-- A trade the strategy asks to open, mirroring `TradeConfig`. -/
structure TradeConfig where
  role : TradeRole
  tp : Option ℚ
  sl : Option ℚ := none
deriving DecidableEq, Repr

/-- An action the strategy requests, mirroring `TradeAction`. -/
structure TradeAction where
  action_type : TradeActionType
  role : TradeRole
  value : Option ℚ := none
deriving DecidableEq, Repr

/-- One tracked broker leg, mirroring `TrackedPosition` in models.py. -/
structure TrackedPosition where
  telegram_msg_id : Int
  mt5_ticket : Int
  symbol : String
  order_type : OrderType
  entry_price : ℚ
  stop_loss : Option ℚ
  take_profits : List ℚ
  lot_size : ℚ
  opened_at : Int
  is_complete : Bool
  status : PositionStatus
  tps_hit : List Int := []
  role : TradeRole := .single
  original_message_text : String := ""
  original_stop_loss : Option ℚ := none
  original_take_profits : List ℚ := []
deriving DecidableEq, Repr

/-- Dual-trade container, mirroring `DualPosition` in models.py. -/
structure DualPosition where
  telegram_msg_id : Int
  scalp : Option TrackedPosition := none
  runner : Option TrackedPosition := none
deriving DecidableEq, Repr

/-- The non-None legs, scalp first, mirroring `DualPosition.all_positions`. -/
def DualPosition.all_positions (d : DualPosition) : List TrackedPosition :=
  (d.scalp.toList ++ d.runner.toList)

/-- All broker tickets of the legs, mirroring `DualPosition.all_tickets`. -/
def DualPosition.all_tickets (d : DualPosition) : List Int :=
  d.all_positions.map (fun p => p.mt5_ticket)

/-- True iff every present leg is CLOSED (vacuously true with no legs),
mirroring `DualPosition.is_closed`. -/
def DualPosition.is_closed (d : DualPosition) : Bool :=
  d.all_positions.all (fun p => p.status = PositionStatus.closed)

/-- Role lookup, mirroring `DualPosition.get_by_role` (SINGLE reads the
scalp slot). -/
def DualPosition.get_by_role (d : DualPosition) : TradeRole → Option TrackedPosition
  | .scalp => d.scalp
  | .runner => d.runner
  | .single => d.scalp

/-- Build a dual from a legacy single leg, mirroring
`DualPosition.from_single`. -/
def DualPosition.from_single (p : TrackedPosition) : DualPosition :=
  if p.role = TradeRole.runner then
    { telegram_msg_id := p.telegram_msg_id, runner := some p }
  else
    { telegram_msg_id := p.telegram_msg_id, scalp := some p }

/-- First value bound to a key in a Python-dict association list. -/
def dlookup {α : Type} (l : List (Int × α)) (k : Int) : Option α :=
  match l with
  | [] => none
  | (k0, v0) :: rest => if k0 = k then some v0 else dlookup rest k

/-- Dict assignment `d[k] = v`: replace the first binding of `k` in place,
or append a fresh binding at the end (Python dicts keep insertion order
and keep the original slot on update). -/
def dinsert {α : Type} (l : List (Int × α)) (k : Int) (v : α) : List (Int × α) :=
  match l with
  | [] => [(k, v)]
  | (k0, v0) :: rest =>
    if k0 = k then (k0, v) :: rest else (k0, v0) :: dinsert rest k v

/-- Dict removal `d.pop(k, None)`: drop the first binding of `k`. -/
def dpop {α : Type} (l : List (Int × α)) (k : Int) : List (Int × α) :=
  match l with
  | [] => []
  | (k0, v0) :: rest =>
    if k0 = k then rest else (k0, v0) :: dpop rest k

/-- Keys of an association list. -/
def dkeys {α : Type} (l : List (Int × α)) : List Int :=
  l.map Prod.fst

/-- The in-memory state of `BotState` in state.py: the positions map, the
reverse index from ticket to message id, and the last-signal pointer. -/
structure BotState where
  positions : List (Int × DualPosition) := []
  ticket_to_msg_id : List (Int × Int) := []
  last_signal_msg_id : Option Int := none
deriving DecidableEq, Repr

/-- Retention bound `BotState.MAX_RECORDS`. -/
def MAX_RECORDS : Nat := 20

/-- Mirrors `BotState.add_position`: stamp the role onto the leg, create
the dual if the message id is new, write the role slot (SCALP and SINGLE
share the scalp slot), then update the reverse index and the last-signal
pointer. -/
def BotState.add_position (s : BotState) (position : TrackedPosition)
    (role : TradeRole) : BotState :=
  let msg_id := position.telegram_msg_id
  let position := { position with role := role }
  let dual :=
    match dlookup s.positions msg_id with
    | some d => d
    | none => { telegram_msg_id := msg_id : DualPosition }
  let dual :=
    if role = TradeRole.runner then { dual with runner := some position }
    else { dual with scalp := some position }
  { positions := dinsert s.positions msg_id dual,
    ticket_to_msg_id := dinsert s.ticket_to_msg_id position.mt5_ticket msg_id,
    last_signal_msg_id := some msg_id }

/-- Mirrors `BotState.remove_position`: pop the dual and drop every leg
ticket from the reverse index. -/
def BotState.remove_position (s : BotState) (msg_id : Int) : BotState :=
  match dlookup s.positions msg_id with
  | none => s
  | some dual =>
    { s with
      positions := dpop s.positions msg_id,
      ticket_to_msg_id :=
        dual.all_positions.foldl
          (fun idx p => dpop idx p.mt5_ticket) s.ticket_to_msg_id }

/-- Mirrors `BotState.reassign_position`: pop the dual at the old id,
relabel the dual and every leg with the new id, repoint each leg ticket
in the reverse index, store the dual under the new id and move the
last-signal pointer. -/
def BotState.reassign_position (s : BotState) (old_msg_id new_msg_id : Int) :
    BotState :=
  match dlookup s.positions old_msg_id with
  | none => s
  | some dual =>
    let dual := { dual with
      telegram_msg_id := new_msg_id,
      scalp := dual.scalp.map (fun p => { p with telegram_msg_id := new_msg_id }),
      runner := dual.runner.map (fun p => { p with telegram_msg_id := new_msg_id }) }
    { positions := dinsert (dpop s.positions old_msg_id) new_msg_id dual,
      ticket_to_msg_id :=
        dual.all_positions.foldl
          (fun idx p => dinsert idx p.mt5_ticket new_msg_id)
          s.ticket_to_msg_id,
      last_signal_msg_id := some new_msg_id }

/-- Sentinel for `datetime.min`, used by `_cleanup_old_records` as the
sort key of a dual with no legs. -/
def datetimeMin : Int := -62135596800

/-- Earliest leg open time of a dual (`get_earliest_opened`). -/
def earliestOpened (d : DualPosition) : Int :=
  match d.all_positions.map (fun p => p.opened_at) with
  | [] => datetimeMin
  | t :: ts => ts.foldl min t

/-- Stable insertion for a descending sort by earliest open time; an
element moves ahead only of strictly smaller keys, matching the
stability of Python `sorted(..., reverse=True)`. -/
def insertDesc (x : Int × DualPosition) :
    List (Int × DualPosition) → List (Int × DualPosition)
  | [] => [x]
  | y :: ys =>
    if earliestOpened y.2 < earliestOpened x.2 then x :: y :: ys
    else y :: insertDesc x ys

/-- Stable descending sort by earliest open time. -/
def sortDesc (l : List (Int × DualPosition)) : List (Int × DualPosition) :=
  l.foldl (fun acc x => insertDesc x acc) []

/-- Rebuild of the reverse index from a positions map, as done by the
loops at the end of `_cleanup_old_records`, in `_load_v2` and in
`_migrate_v1_to_v2`. -/
def rebuildIdx (ps : List (Int × DualPosition)) : List (Int × Int) :=
  ps.foldl
    (fun idx kv =>
      kv.2.all_positions.foldl
        (fun idx p => dinsert idx p.mt5_ticket kv.1) idx)
    []

/-- Mirrors `BotState._cleanup_old_records`: a no-op at or below
MAX_RECORDS, otherwise keep the MAX_RECORDS most recent duals (by
earliest leg open time) and rebuild the reverse index. -/
def BotState.cleanup_old_records (s : BotState) : BotState :=
  if s.positions.length ≤ MAX_RECORDS then s
  else
    let kept := (sortDesc s.positions).take MAX_RECORDS
    { s with positions := kept, ticket_to_msg_id := rebuildIdx kept }

/-- Number of duals in the positions map owning a leg with the given
ticket (the claim C5 invariant speaks of exactly one owner). -/
def ownersCount (s : BotState) (t : Int) : Nat :=
  (s.positions.filter (fun kv => kv.2.all_tickets.contains t)).length

/-- In-memory effect of `BotState.save`: the cleanup that `save` performs
before writing the file (the JSON dump itself is modelled separately). -/
def stateSave (s : BotState) : BotState := s.cleanup_old_records

/-- Mirrors `DualTPStrategy.get_trades_to_open`: a re-entry opens one
SINGLE leg targeting the first take-profit; otherwise a scalp leg with
the first take-profit and a runner leg with the last take-profit when at
least two are listed (`take_profits[-1] if len(take_profits) >= 2 else
None`). -/
def DualTPStrategy.get_trades_to_open (sig : TradeSignal) : List TradeConfig :=
  if sig.message_type = MessageType.reEntry then
    [{ role := .single, tp := sig.take_profits.head?, sl := sig.stop_loss }]
  else
    let tp1 := sig.take_profits.head?
    let last_tp :=
      if 2 ≤ sig.take_profits.length then sig.take_profits.getLast? else none
    [{ role := .scalp, tp := tp1, sl := sig.stop_loss },
     { role := .runner, tp := last_tp, sl := sig.stop_loss }]

/-- Mirrors `DualTPStrategy.on_tp_hit`: TP1 asks to verify the scalp
closed and to move the runner to breakeven; TP2 and later ask to verify
the runner closed; an explicit move-to-entry without a TP number moves
the runner to breakeven. Only non-CLOSED legs generate actions. -/
def DualTPStrategy.on_tp_hit (tp_number : Option Int) (dual : DualPosition)
    (sig : TradeSignal) : List TradeAction :=
  if tp_number = some 1 then
    (match dual.scalp with
     | some sc =>
       if sc.status ≠ PositionStatus.closed then
         [{ action_type := .verifyClosed, role := .scalp }]
       else []
     | none => []) ++
    (match dual.runner with
     | some r =>
       if r.status ≠ PositionStatus.closed then
         [{ action_type := .moveSlToBreakeven, role := .runner,
            value := some r.entry_price }]
       else []
     | none => [])
  else if (match tp_number with | some n => decide (1 < n) | none => false) then
    (match dual.runner with
     | some r =>
       if r.status ≠ PositionStatus.closed then
         [{ action_type := .verifyClosed, role := .runner }]
       else []
     | none => [])
  else if sig.move_sl_to_entry then
    (match dual.runner with
     | some r =>
       if r.status ≠ PositionStatus.closed then
         [{ action_type := .moveSlToBreakeven, role := .runner,
            value := some r.entry_price }]
       else []
     | none => [])
  else []

/-- Mirrors `DualTPStrategy.should_ignore_profit_message`: informational
when there is no explicit TP-hit number and no move-to-entry flag. -/
def DualTPStrategy.should_ignore_profit_message (sig : TradeSignal) : Bool :=
  sig.tp_hit_number = none && !sig.move_sl_to_entry

/-- Snapshot of a live MT5 position as returned by
`executor.get_position` (the fields the handlers consume). -/
structure MT5Pos where
  symbol : String
  price_open : ℚ
  is_buy : Bool
deriving DecidableEq, Repr

/-- Modelled from the spec: `validate_sl_tp` lives in the executor
module, which is absent from src (only bot.py calls it and the test
suite exercises it). Spec 4.4: drops a candidate value if it is on the
wrong side of entry for the given direction; never raises, always
returns best-effort usable values plus warnings. -/
def validate_sl_tp (is_buy : Bool) (entry : ℚ) (sl tp : Option ℚ) :
    Option ℚ × Option ℚ × List String :=
  let vsl : Option ℚ × List String :=
    match sl with
    | none => (none, [])
    | some v =>
      if (if is_buy then v < entry else entry < v) then (some v, [])
      else (none, ["SL on wrong side of entry, dropped"])
  let vtp : Option ℚ × List String :=
    match tp with
    | none => (none, [])
    | some v =>
      if (if is_buy then entry < v else v < entry) then (some v, [])
      else (none, ["TP on wrong side of entry, dropped"])
  (vsl.1, vtp.1, vsl.2 ++ vtp.2)

/-- Executable absolute value on rationals (Python `abs`). -/
def qabs (x : ℚ) : ℚ := if x < 0 then -x else x

/-- Modelled from the spec: `find_valid_tp` lives in the executor
module, which is absent from src (only the test suite exercises it).
Spec 4.4: picks the first take-profit still on the profitable side of
entry; if every listed TP has already been passed by price, falls back
to a synthetic 1-to-1 risk/reward target computed from the stop-loss
distance; if no stop-loss is available for the fallback, returns no TP
with a warning. -/
def find_valid_tp (is_buy : Bool) (entry : ℚ) (tps : List ℚ)
    (sl : Option ℚ) : Option ℚ × Option String :=
  match tps.find? (fun tp => if is_buy then decide (entry < tp) else decide (tp < entry)) with
  | some tp =>
    (some tp, if tps.head? = some tp then none else some "earlier TP already breached, using a later TP")
  | none =>
    match sl with
    | some slv =>
      (some (if is_buy then entry + qabs (entry - slv) else entry - qabs (entry - slv)),
       some "all TPs breached, using 1:1 RR fallback")
    | none => (none, some "all TPs breached and no SL, opening without TP")

/-- Mirrors `TelegramMT5Bot._get_new_tp`: the explicit new TP if truthy,
else the first signal TP, else the first stored TP, else none. -/
def get_new_tp (sig : TradeSignal) (pos : TrackedPosition) : Option ℚ :=
  if truthyQ sig.new_take_profit then sig.new_take_profit
  else
    match sig.take_profits with
    | tp :: _ => some tp
    | [] =>
      match pos.take_profits with
      | tp :: _ => some tp
      | [] => none

/-- Per-leg body of the `_handle_modification` loop: skip CLOSED legs,
pick the role TP (runner takes the last listed TP), fall back through
`new_sl or pos.stop_loss`, and commit the new values only when the
gateway modify succeeds. -/
def modifyLeg (modifyOk : Int → Bool) (sig : TradeSignal) (new_sl : Option ℚ)
    (pos : TrackedPosition) : TrackedPosition :=
  if pos.status = PositionStatus.closed then pos
  else
    let effective_sl := pyOrQ new_sl pos.stop_loss
    if modifyOk pos.mt5_ticket then
      { pos with
        stop_loss := effective_sl,
        take_profits :=
          match sig.take_profits with
          | [] => pos.take_profits
          | t :: ts =>
            if pos.role = TradeRole.runner then t :: ts else [t],
        is_complete := true,
        status := PositionStatus.opened }
    else pos

/-- Mirrors `TelegramMT5Bot._handle_modification`: resolve the target
dual, compute `new_sl = signal.new_stop_loss or signal.stop_loss`,
update every leg through `modifyLeg`, then persist. -/
def handleModification (modifyOk : Int → Bool) (target : Option Int)
    (sig : TradeSignal) (s : BotState) : BotState :=
  match target with
  | none => s
  | some tgt =>
    match dlookup s.positions tgt with
    | none => s
    | some dual =>
      let new_sl := pyOrQ sig.new_stop_loss sig.stop_loss
      let dual := { dual with
        scalp := dual.scalp.map (modifyLeg modifyOk sig new_sl),
        runner := dual.runner.map (modifyLeg modifyOk sig new_sl) }
      stateSave { s with positions := dinsert s.positions tgt dual }

/-- Apply a function to the dual stored at a key, if present (models an
in-place mutation of the dict value). -/
def BotState.updateAt (s : BotState) (k : Int) (f : DualPosition → DualPosition) :
    BotState :=
  match dlookup s.positions k with
  | none => s
  | some d => { s with positions := dinsert s.positions k (f d) }

/-- Per-leg body of the `_apply_edit_changes` loop: skip CLOSED legs,
pick the role TP from the edited list, and on a successful gateway
modify push the new SL/TP, flip a pending leg to OPEN, and overwrite
the original-signal snapshot with the edited values. -/
def editLeg (modifyOk : Int → Bool) (new_sl : Option ℚ) (new_tps : List ℚ)
    (edited_text : String) (pos : TrackedPosition) : TrackedPosition :=
  if pos.status = PositionStatus.closed then pos
  else if modifyOk pos.mt5_ticket then
    let pos :=
      { pos with
        stop_loss := if truthyQ new_sl then new_sl else pos.stop_loss,
        take_profits := if new_tps = [] then pos.take_profits else new_tps }
    let pos :=
      if pos.status = PositionStatus.pendingCompletion then
        { pos with status := PositionStatus.opened, is_complete := true }
      else pos
    { pos with
      original_message_text := edited_text,
      original_stop_loss := new_sl,
      original_take_profits := new_tps }
  else pos

/-- Mirrors `TelegramMT5Bot._apply_edit_changes`: diff the edited SL/TP
against the stored original snapshot (a change of SL counts only beyond
the 0.01 epsilon and only when both values are truthy), and when
something changed push the new values to every open leg and persist. -/
def applyEditChanges (modifyOk : Int → Bool) (msg_id : Int)
    (dual : DualPosition) (new_signal : TradeSignal) (edited_text : String)
    (s : BotState) : BotState :=
  match dual.scalp <|> dual.runner with
  | none => s
  | some ref_pos =>
    let original_sl := pyOrQ ref_pos.original_stop_loss ref_pos.stop_loss
    let original_tps :=
      if ref_pos.original_take_profits = [] then ref_pos.take_profits
      else ref_pos.original_take_profits
    let new_sl := new_signal.stop_loss
    let new_tps := new_signal.take_profits
    let sl_changed :=
      truthyQ new_sl && truthyQ original_sl &&
        decide ((1 : ℚ)/100 < qabs (new_sl.getD 0 - original_sl.getD 0))
    let tps_changed := new_tps ≠ original_tps
    if !(sl_changed || tps_changed) then s
    else
      let dual :=
        { dual with
          scalp := dual.scalp.map (editLeg modifyOk new_sl new_tps edited_text),
          runner := dual.runner.map (editLeg modifyOk new_sl new_tps edited_text) }
      stateSave { s with positions := dinsert s.positions msg_id dual }

/-- Mirrors `TelegramMT5Bot._process_edited_message`: ignore the edit
unless the message has a tracked dual that is not fully closed and the
edit arrives within the window measured from the earliest leg open time
(`time_since_open > edit_window` rejects, so the boundary instant is
within the window); then re-parse (`parsed` is the parser outcome) and
apply the diff. -/
def processEditedMessage (modifyOk : Int → Bool) (now edit_window : Int)
    (msg_id : Int) (parsed : Option TradeSignal) (edited_text : String)
    (s : BotState) : BotState :=
  match dlookup s.positions msg_id with
  | none => s
  | some dual =>
    if dual.is_closed then s
    else
      let time_since_open := now - earliestOpened dual
      if edit_window < time_since_open then s
      else
        match parsed with
        | none => s
        | some new_signal =>
          applyEditChanges modifyOk msg_id dual new_signal edited_text s

/-- Per-leg body of the close loop in `_handle_re_entry`: a leg attempted
only when open, and marked CLOSED only when the gateway close succeeds. -/
def closeLegIfOk (closeOk : Int → Bool) (pos : TrackedPosition) : TrackedPosition :=
  if pos.status ≠ PositionStatus.closed && closeOk pos.mt5_ticket then
    { pos with status := PositionStatus.closed }
  else pos

/-- Mirrors `TelegramMT5Bot._handle_re_entry`. Proceeds only when at
least one open leg is NOT profitable (`any_in_loss`); then closes every
open leg whose gateway close succeeds, persists, and builds the fresh
complete signal handed to `_handle_new_signal` (returned here as the
second component; `none` means no new position is opened). -/
def handleReEntry (profitable closeOk : Int → Bool) (target : Option Int)
    (sig : TradeSignal) (s : BotState) : BotState × Option TradeSignal :=
  match target with
  | none => (s, none)
  | some tgt =>
    match dlookup s.positions tgt with
    | none => (s, none)
    | some dual =>
      let open_positions :=
        dual.all_positions.filter (fun p => p.status ≠ PositionStatus.closed)
      if open_positions = [] then (s, none)
      else
        let any_in_loss := open_positions.any (fun p => !profitable p.mt5_ticket)
        if !any_in_loss then (s, none)
        else
          let ref_pos? :=
            (open_positions.filter (fun p => closeOk p.mt5_ticket)).head?
          match ref_pos? with
          | none => (s, none)
          | some ref_pos =>
            let dual :=
              { dual with
                scalp := dual.scalp.map (closeLegIfOk closeOk),
                runner := dual.runner.map (closeLegIfOk closeOk) }
            let s := stateSave { s with positions := dinsert s.positions tgt dual }
            let re_entry_sl :=
              pyOrQ (pyOrQ sig.new_stop_loss sig.stop_loss) ref_pos.stop_loss
            if !truthyQ re_entry_sl then (s, none)
            else
              (s, some
                { symbol := pyOrStr sig.symbol ref_pos.symbol,
                  order_type := ref_pos.order_type,
                  entry_price := sig.re_entry_price,
                  stop_loss := re_entry_sl,
                  take_profits := ref_pos.take_profits,
                  lot_size := sig.lot_size,
                  comment := sig.comment,
                  confidence := sig.confidence,
                  message_type := MessageType.reEntry,
                  is_complete := true })

/-- Write a leg back into the slot that `get_by_role` read it from
(SINGLE and SCALP share the scalp slot). -/
def DualPosition.setRole (d : DualPosition) (role : TradeRole)
    (p : TrackedPosition) : DualPosition :=
  if role = TradeRole.runner then { d with runner := some p }
  else { d with scalp := some p }

/-- One iteration of the action loop in `_handle_profit_notification`:
re-read the leg for the action role, skip it when absent or CLOSED,
then VERIFY_CLOSED (gateway not-found means closed: record the TP
number when truthy), MOVE_SL_TO_BREAKEVEN (set the SL to the action
value or the leg entry when falsy, record the TP number when truthy,
only on gateway success), or CLOSE. -/
def execProfitAction (tickExists moveOk closeOk : Int → Bool)
    (sig : TradeSignal) (dual : DualPosition) (action : TradeAction) :
    DualPosition :=
  match dual.get_by_role action.role with
  | none => dual
  | some pos =>
    if pos.status = PositionStatus.closed then dual
    else
      match action.action_type with
      | .verifyClosed =>
        if tickExists pos.mt5_ticket then dual
        else
          dual.setRole action.role
            { pos with
              status := PositionStatus.closed,
              tps_hit :=
                if truthyI sig.tp_hit_number then
                  pos.tps_hit ++ [sig.tp_hit_number.getD 0]
                else pos.tps_hit }
      | .moveSlToBreakeven =>
        if !tickExists pos.mt5_ticket then
          dual.setRole action.role { pos with status := PositionStatus.closed }
        else
          let entry_price :=
            if truthyQ action.value then action.value.getD 0 else pos.entry_price
          if moveOk pos.mt5_ticket then
            dual.setRole action.role
              { pos with
                stop_loss := some entry_price,
                tps_hit :=
                  if truthyI sig.tp_hit_number then
                    pos.tps_hit ++ [sig.tp_hit_number.getD 0]
                  else pos.tps_hit }
          else dual
      | .close =>
        if closeOk pos.mt5_ticket then
          dual.setRole action.role { pos with status := PositionStatus.closed }
        else dual
      | _ => dual

/-- Mirrors `TelegramMT5Bot._handle_profit_notification` with the
configured dual-TP strategy: drop informational messages, resolve the
target dual, ask the strategy for actions, execute them in order and
persist. -/
def handleProfitNotification (tickExists moveOk closeOk : Int → Bool)
    (target : Option Int) (sig : TradeSignal) (s : BotState) : BotState :=
  if DualTPStrategy.should_ignore_profit_message sig then s
  else
    match target with
    | none => s
    | some tgt =>
      match dlookup s.positions tgt with
      | none => s
      | some dual =>
        if dual.is_closed then s
        else
          let actions := DualTPStrategy.on_tp_hit sig.tp_hit_number dual sig
          if actions = [] then s
          else
            let dual :=
              actions.foldl (execProfitAction tickExists moveOk closeOk sig) dual
            stateSave { s with positions := dinsert s.positions tgt dual }

/-- Per-leg body of the completion loop in `_complete_pending_position`:
skip CLOSED legs, treat gateway not-found as CLOSED, validate the new
SL and the role TP against the live entry and direction, skip when both
are dropped, and commit SL/TP/OPEN only when the gateway modify
succeeds. -/
def completeLeg (getPos : Int → Option MT5Pos) (modifyOk : Int → Bool)
    (sig : TradeSignal) (pos : TrackedPosition) : TrackedPosition :=
  if pos.status = PositionStatus.closed then pos
  else
    let new_tp :=
      if pos.role = TradeRole.runner then sig.take_profits.getLast?
      else sig.take_profits.head?
    match getPos pos.mt5_ticket with
    | none => { pos with status := PositionStatus.closed }
    | some mt5_pos =>
      let v := validate_sl_tp mt5_pos.is_buy mt5_pos.price_open sig.stop_loss new_tp
      if v.1 = none ∧ v.2.1 = none then pos
      else if modifyOk pos.mt5_ticket then
        { pos with
          stop_loss := v.1,
          take_profits :=
            if pos.role = TradeRole.runner then sig.take_profits
            else
              match sig.take_profits with
              | t :: _ => [t]
              | [] => [],
          is_complete := true,
          status := PositionStatus.opened }
      else pos

/-- Mirrors `TelegramMT5Bot._complete_pending_position` for the pending
dual stored at `old_msg_id`: on a direction mismatch hand the signal
back as a brand-new signal (second component); otherwise reassign the
dual to the new message id, overwrite every leg original-signal
snapshot with the completing signal, run the completion loop on every
leg and persist. The reassignment and snapshot rewrite happen before
any gateway call, deliberately (source comment: so that edits to the
completion message are processed even if the modification fails). -/
def completePendingPosition (getPos : Int → Option MT5Pos)
    (modifyOk : Int → Bool) (new_msg_id old_msg_id : Int) (sig : TradeSignal)
    (s : BotState) : BotState × Option TradeSignal :=
  match dlookup s.positions old_msg_id with
  | none => (s, none)
  | some pending_dual =>
    let mismatch :=
      match pending_dual.scalp <|> pending_dual.runner with
      | some ref_pos => ref_pos.order_type.isBuyFamily != sig.order_type.isBuyFamily
      | none => false
    if mismatch then (s, some sig)
    else
      let s := s.reassign_position old_msg_id new_msg_id
      let snap := fun (p : TrackedPosition) =>
        { p with
          original_message_text := sig.comment,
          original_stop_loss := sig.stop_loss,
          original_take_profits := sig.take_profits }
      let s := s.updateAt new_msg_id (fun d =>
        { d with scalp := d.scalp.map snap, runner := d.runner.map snap })
      let s := s.updateAt new_msg_id (fun d =>
        { d with
          scalp := d.scalp.map (completeLeg getPos modifyOk sig),
          runner := d.runner.map (completeLeg getPos modifyOk sig) })
      (stateSave s, none)

/-- Key of a JSON object. The snapshot writes dict keys through `str`, so
a decimal-integer string is represented by the integer it denotes (for
integers, `int` after `str` is the identity); any other string stands
for itself. -/
inductive JKey where
  | iKey (i : Int)
  | sKey (s : String)
deriving DecidableEq, Repr

/-- JSON values as `json.load` produces them (Python keeps ints and
floats apart). An ISO datetime string is represented by the timestamp
it denotes (`isoformat` and `fromisoformat` are exact inverses); a
`str` in a timestamp slot stands for a string that is not a valid ISO
datetime. -/
inductive Json where
  | null
  | jbool (b : Bool)
  | jint (i : Int)
  | jnum (q : ℚ)
  | jstr (s : String)
  | jarr (xs : List Json)
  | jobj (kvs : List (JKey × Json))

/-- Exception kinds raised by the Python code modelled here. `load`
catches exactly `jsonDecode`, `keyErr` and `valueErr`. -/
inductive PyError where
  | jsonDecode
  | keyErr
  | valueErr
  | attrErr
  | typeErr
  | osErr
deriving DecidableEq, Repr

/-- First value bound to a plain string key in a JSON object. -/
def jfind (kvs : List (JKey × Json)) (k : String) : Option Json :=
  match kvs with
  | [] => none
  | (k0, v0) :: rest => if k0 = JKey.sKey k then some v0 else jfind rest k

/-- Python `data.get(k, d)`: needs a dict (`AttributeError` otherwise). -/
def jGetD (j : Json) (k : String) (d : Json) : Except PyError Json :=
  match j with
  | .jobj kvs =>
    match jfind kvs k with
    | some v => .ok v
    | none => .ok d
  | _ => .error .attrErr

/-- Python `data[k]` on the snapshot dict: `KeyError` when the key is
missing, a type error when the value is not a dict at all. -/
def jGetS (j : Json) (k : String) : Except PyError Json :=
  match j with
  | .jobj kvs =>
    match jfind kvs k with
    | some v => .ok v
    | none => .error .keyErr
  | _ => .error .typeErr

/-- Python truthiness of a JSON value (`None`, `0`, `0.0`, empty string,
empty list and empty dict are falsy). -/
def jTruthy : Json → Bool
  | .null => false
  | .jbool b => b
  | .jint i => !(i = 0)
  | .jnum q => !(q = 0)
  | .jstr s => !(s = "")
  | .jarr xs => !xs.isEmpty
  | .jobj kvs => !kvs.isEmpty

/-- Python `version == 1` where the left side came from JSON: numeric
cross-type equality (`1 == 1.0 == True` in Python). -/
def jeqInt1 : Json → Bool
  | .jint i => i = 1
  | .jnum q => q = 1
  | .jbool b => b
  | _ => false

/-- A raw int field of the snapshot (assigned without conversion in the
source; a payload of any other JSON type would corrupt the store and is
modelled as a type error). -/
def asInt : Json → Except PyError Int
  | .jint i => .ok i
  | _ => .error .typeErr

/-- A raw optional int field (for the last-signal pointer). -/
def asOptInt : Json → Except PyError (Option Int)
  | .null => .ok none
  | .jint i => .ok (some i)
  | _ => .error .typeErr

/-- A raw price field (JSON ints and floats are both Python numbers). -/
def asQ : Json → Except PyError ℚ
  | .jnum q => .ok q
  | .jint i => .ok (i : ℚ)
  | _ => .error .typeErr

/-- A raw optional price field. -/
def asOptQ : Json → Except PyError (Option ℚ)
  | .null => .ok none
  | j => (asQ j).map some

/-- A raw string field. -/
def asStr : Json → Except PyError String
  | .jstr s => .ok s
  | _ => .error .typeErr

/-- A raw bool field. -/
def asBool : Json → Except PyError Bool
  | .jbool b => .ok b
  | _ => .error .typeErr

/-- Elementwise decoding of a JSON array of prices. -/
def qListD : List Json → Except PyError (List ℚ)
  | [] => .ok []
  | x :: xs => do
    let q ← asQ x
    let rest ← qListD xs
    pure (q :: rest)

/-- A raw list-of-prices field. -/
def asQList : Json → Except PyError (List ℚ)
  | .jarr xs => qListD xs
  | _ => .error .typeErr

/-- Elementwise decoding of a JSON array of ints. -/
def iListD : List Json → Except PyError (List Int)
  | [] => .ok []
  | x :: xs => do
    let i ← asInt x
    let rest ← iListD xs
    pure (i :: rest)

/-- A raw list-of-ints field. -/
def asIntList : Json → Except PyError (List Int)
  | .jarr xs => iListD xs
  | _ => .error .typeErr

/-- `datetime.fromisoformat` on a JSON field: a valid ISO string is
represented by its timestamp, any other string raises ValueError, a
non-string raises TypeError. -/
def fromIso : Json → Except PyError Int
  | .jint t => .ok t
  | .jstr _ => .error .valueErr
  | _ => .error .typeErr

/-- `OrderType(value)`: ValueError on any non-member value. -/
def OrderType.ofValue : Json → Except PyError OrderType
  | .jstr "buy" => .ok .buy
  | .jstr "sell" => .ok .sell
  | .jstr "buy_limit" => .ok .buyLimit
  | .jstr "sell_limit" => .ok .sellLimit
  | .jstr "buy_stop" => .ok .buyStop
  | .jstr "sell_stop" => .ok .sellStop
  | _ => .error .valueErr

/-- `PositionStatus(value)`: ValueError on any non-member value. -/
def PositionStatus.ofValue : Json → Except PyError PositionStatus
  | .jstr "open" => .ok .opened
  | .jstr "closed" => .ok .closed
  | .jstr "pending_completion" => .ok .pendingCompletion
  | _ => .error .valueErr

/-- Role decoding in `TrackedPosition.from_dict`: `TradeRole(role_str)`
with the ValueError caught and mapped to SINGLE. -/
def roleOfValue : Json → TradeRole
  | .jstr "scalp" => .scalp
  | .jstr "runner" => .runner
  | .jstr "single" => .single
  | _ => .single

/-- JSON encoding of an optional price. -/
def optQJson : Option ℚ → Json
  | none => .null
  | some q => .jnum q

/-- Mirrors `TrackedPosition.to_dict`. -/
def TrackedPosition.to_dict (p : TrackedPosition) : Json :=
  .jobj
    [ (.sKey "telegram_msg_id", .jint p.telegram_msg_id),
      (.sKey "mt5_ticket", .jint p.mt5_ticket),
      (.sKey "symbol", .jstr p.symbol),
      (.sKey "order_type", .jstr p.order_type.value),
      (.sKey "entry_price", .jnum p.entry_price),
      (.sKey "stop_loss", optQJson p.stop_loss),
      (.sKey "take_profits", .jarr (p.take_profits.map Json.jnum)),
      (.sKey "lot_size", .jnum p.lot_size),
      (.sKey "opened_at", .jint p.opened_at),
      (.sKey "is_complete", .jbool p.is_complete),
      (.sKey "status", .jstr p.status.value),
      (.sKey "tps_hit", .jarr (p.tps_hit.map Json.jint)),
      (.sKey "role", .jstr p.role.value),
      (.sKey "original_message_text", .jstr p.original_message_text),
      (.sKey "original_stop_loss", optQJson p.original_stop_loss),
      (.sKey "original_take_profits", .jarr (p.original_take_profits.map Json.jnum)) ]

/-- Mirrors `TrackedPosition.from_dict`, with the exception kind each
failing conversion raises. -/
def TrackedPosition.from_dict (j : Json) : Except PyError TrackedPosition := do
  let role := roleOfValue (← jGetD j "role" (.jstr "single"))
  let stop_loss ← asOptQ (← jGetD j "stop_loss" .null)
  let take_profits ← asQList (← jGetD j "take_profits" (.jarr []))
  let telegram_msg_id ← asInt (← jGetS j "telegram_msg_id")
  let mt5_ticket ← asInt (← jGetS j "mt5_ticket")
  let symbol ← asStr (← jGetS j "symbol")
  let order_type ← OrderType.ofValue (← jGetS j "order_type")
  let entry_price ← asQ (← jGetS j "entry_price")
  let lot_size ← asQ (← jGetS j "lot_size")
  let opened_at ← fromIso (← jGetS j "opened_at")
  let is_complete ← asBool (← jGetS j "is_complete")
  let status ← PositionStatus.ofValue (← jGetS j "status")
  let tps_hit ← asIntList (← jGetD j "tps_hit" (.jarr []))
  let original_message_text ← asStr (← jGetD j "original_message_text" (.jstr ""))
  let original_stop_loss ← asOptQ (← jGetD j "original_stop_loss" (optQJson stop_loss))
  let original_take_profits ←
    asQList (← jGetD j "original_take_profits" (.jarr (take_profits.map Json.jnum)))
  pure
    { telegram_msg_id, mt5_ticket, symbol, order_type, entry_price, stop_loss,
      take_profits, lot_size, opened_at, is_complete, status, tps_hit, role,
      original_message_text, original_stop_loss, original_take_profits }

/-- Mirrors `DualPosition.to_dict`. -/
def DualPosition.to_dict (d : DualPosition) : Json :=
  .jobj
    [ (.sKey "telegram_msg_id", .jint d.telegram_msg_id),
      (.sKey "scalp", match d.scalp with | some p => p.to_dict | none => .null),
      (.sKey "runner", match d.runner with | some p => p.to_dict | none => .null) ]

/-- Mirrors `DualPosition.from_dict` (a slot decodes only when
`data.get(slot)` is truthy). -/
def DualPosition.from_dict (j : Json) : Except PyError DualPosition := do
  let telegram_msg_id ← asInt (← jGetS j "telegram_msg_id")
  let scalpJ ← jGetD j "scalp" .null
  let scalp ←
    if jTruthy scalpJ then (TrackedPosition.from_dict scalpJ).map some
    else pure none
  let runnerJ ← jGetD j "runner" .null
  let runner ←
    if jTruthy runnerJ then (TrackedPosition.from_dict runnerJ).map some
    else pure none
  pure { telegram_msg_id, scalp, runner }

/-- The JSON document `BotState.save` writes (after its cleanup); the
`now` argument is the `last_updated` stamp, which `load` ignores. -/
def BotState.save_dump (s : BotState) (now : Int) : Json :=
  .jobj
    [ (.sKey "version", .jint 3),
      (.sKey "last_updated", .jint now),
      (.sKey "last_signal_msg_id",
        match s.last_signal_msg_id with
        | some i => .jint i
        | none => .null),
      (.sKey "positions",
        .jobj (s.positions.map (fun kv => (JKey.iKey kv.1, kv.2.to_dict)))),
      (.sKey "ticket_to_msg_id",
        .jobj (s.ticket_to_msg_id.map (fun kv => (JKey.iKey kv.1, .jint kv.2)))) ]

/-- Mirrors `BotState.save`: run the cleanup, then dump the state. -/
def BotState.save (s : BotState) (now : Int) : BotState × Json :=
  let s := s.cleanup_old_records
  (s, s.save_dump now)

/-- Python `int(key)` on a dict key string: ValueError unless the string
is a decimal integer. -/
def pyIntOfKey : JKey → Except PyError Int
  | .iKey i => .ok i
  | .sKey _ => .error .valueErr

/-- The loop of `_load_v2`: decode each dual, store it under its key and
point every leg ticket at that key. -/
def load_v2_loop (kvs : List (JKey × Json)) (s : BotState) :
    Except PyError BotState :=
  match kvs with
  | [] => .ok s
  | kv :: rest => do
    let msg_id ← pyIntOfKey kv.1
    let dual ← DualPosition.from_dict kv.2
    load_v2_loop rest
      { s with
        positions := dinsert s.positions msg_id dual,
        ticket_to_msg_id :=
          dual.all_positions.foldl
            (fun idx p => dinsert idx p.mt5_ticket msg_id)
            s.ticket_to_msg_id }

/-- Mirrors `BotState._load_v2` (`.items()` on a non-dict "positions"
value raises AttributeError). -/
def BotState.load_v2 (j : Json) (s : BotState) : Except PyError BotState := do
  let posJ ← jGetD j "positions" (.jobj [])
  match posJ with
  | .jobj kvs => load_v2_loop kvs s
  | _ => .error .attrErr

/-- The loop of `_migrate_v1_to_v2`: decode each single leg, force its
role to SINGLE, wrap it in a dual and index its ticket. -/
def migrate_v1_loop (kvs : List (JKey × Json)) (s : BotState) :
    Except PyError BotState :=
  match kvs with
  | [] => .ok s
  | kv :: rest => do
    let msg_id ← pyIntOfKey kv.1
    let position ← TrackedPosition.from_dict kv.2
    let position := { position with role := TradeRole.single }
    let dual := DualPosition.from_single position
    migrate_v1_loop rest
      { s with
        positions := dinsert s.positions msg_id dual,
        ticket_to_msg_id :=
          dinsert s.ticket_to_msg_id position.mt5_ticket msg_id }

/-- Mirrors `BotState._migrate_v1_to_v2`. -/
def BotState.migrate_v1_to_v2 (j : Json) (s : BotState) :
    Except PyError BotState := do
  let posJ ← jGetD j "positions" (.jobj [])
  match posJ with
  | .jobj kvs => migrate_v1_loop kvs s
  | _ => .error .attrErr

/-- The body of the `try` block in `BotState.load`: read the version
(default 1), set the last-signal pointer, then dispatch to migration or
the v2 loader. -/
def BotState.load_body (j : Json) (s : BotState) : Except PyError BotState := do
  let versionJ ← jGetD j "version" (.jint 1)
  let last ← asOptInt (← jGetD j "last_signal_msg_id" .null)
  let s := { s with last_signal_msg_id := last }
  if jeqInt1 versionJ then s.migrate_v1_to_v2 j else s.load_v2 j

/-- What the file system and `json.load` handed to `BotState.load`. -/
inductive FileOutcome where
  | missing
  | unreadable
  | badJson
  | doc (j : Json)

/-- The empty state the except clause of `load` resets to. -/
def emptiedState : BotState :=
  { positions := [], ticket_to_msg_id := [], last_signal_msg_id := none }

/-- Mirrors `BotState.load`: a missing file returns early; an unreadable
file raises OSError out of the method (the `except` clause names only
JSONDecodeError, KeyError and ValueError); a JSON parse failure or a
body failure of a caught kind resets to the empty state with a warning;
any other exception kind propagates. -/
def BotState.load (file : FileOutcome) (s : BotState) : Except PyError BotState :=
  match file with
  | .missing => .ok s
  | .unreadable => .error .osErr
  | .badJson => .ok emptiedState
  | .doc j =>
    match s.load_body j with
    | .ok s2 => .ok s2
    | .error e =>
      if e = .jsonDecode ∨ e = .keyErr ∨ e = .valueErr then .ok emptiedState
      else .error e

/-- JSON encoding of an optional int (the last-signal pointer). -/
def optIntJson : Option Int → Json
  | none => .null
  | some i => .jint i

/-- Encoded positions map, as written by `save_dump`. -/
def encodePs (ps : List (Int × DualPosition)) : List (JKey × Json) :=
  ps.map (fun kv => (JKey.iKey kv.1, kv.2.to_dict))

/-- Encoded v1 positions map: one single TrackedPosition per key. -/
def encodeV1 (ps : List (Int × TrackedPosition)) : List (JKey × Json) :=
  ps.map (fun kv => (JKey.iKey kv.1, kv.2.to_dict))

/-- A version-1 snapshot document: no version key (so `data.get` defaults
the version to 1) and a single-leg positions map. -/
def v1_dump (ps : List (Int × TrackedPosition)) (last : Option Int) : Json :=
  .jobj
    [ (.sKey "last_signal_msg_id", optIntJson last),
      (.sKey "positions", .jobj (encodeV1 ps)) ]

/-- The positions map `_migrate_v1_to_v2` builds from decoded v1 entries:
each leg is forced to SINGLE and wrapped in a dual. -/
def migratedPs (ps : List (Int × TrackedPosition)) :
    List (Int × DualPosition) :=
  ps.map (fun kv =>
    (kv.1, DualPosition.from_single { kv.2 with role := TradeRole.single }))

/-- The state obtained by migrating a v1 snapshot of entries `ps` with
last-signal pointer `last`. -/
def migratedState (ps : List (Int × TrackedPosition)) (last : Option Int) :
    BotState :=
  { positions := migratedPs ps,
    ticket_to_msg_id := rebuildIdx (migratedPs ps),
    last_signal_msg_id := last }

/-- Reverse-index accumulation over a positions list, the common shape of
the loops in `_cleanup_old_records`, `_load_v2` and `_migrate_v1_to_v2`
(`rebuildIdx ps` is `idxFold ps []`). -/
def idxFold (ps : List (Int × DualPosition)) (idx : List (Int × Int)) :
    List (Int × Int) :=
  ps.foldl
    (fun idx kv =>
      kv.2.all_positions.foldl
        (fun idx p => dinsert idx p.mt5_ticket kv.1) idx)
    idx

/-- Owner count of a ticket over a bare positions list. -/
def ownersCountL (ps : List (Int × DualPosition)) (t : Int) : Nat :=
  (ps.filter (fun kv => kv.2.all_tickets.contains t)).length

/-- No ticket is owned by two duals of the list. -/
def OwnOnceL (ps : List (Int × DualPosition)) : Prop :=
  ∀ t, ownersCountL ps t ≤ 1

/-- Well-formedness of a store: the dict key lists are duplicate-free (as
Python dicts guarantee), no ticket is owned by two duals, and a ticket
is a key of the reverse index exactly when it is owned by exactly one
dual of the positions map (the claim C5 invariant). -/
def WF (s : BotState) : Prop :=
  (dkeys s.positions).Nodup ∧
  (dkeys s.ticket_to_msg_id).Nodup ∧
  OwnOnceL s.positions ∧
  ∀ t, (dlookup s.ticket_to_msg_id t).isSome ↔ ownersCountL s.positions t = 1

/-- The profitable side of entry for a candidate take-profit: above entry
for a BUY, below entry for a SELL. -/
def profSide (is_buy : Bool) (entry t : ℚ) : Prop :=
  if is_buy then entry < t else t < entry

/-- Concrete leg fixture used by the counterexample and witness states. -/
def mkLeg (msg ticket : Int) (ot : OrderType) (entry : ℚ) (sl : Option ℚ)
    (tps : List ℚ) (st : PositionStatus) (hits : List Int) (role : TradeRole) :
    TrackedPosition :=
  { telegram_msg_id := msg, mt5_ticket := ticket, symbol := "XAUUSD",
    order_type := ot, entry_price := entry, stop_loss := sl,
    take_profits := tps, lot_size := 1, opened_at := 100,
    is_complete := true, status := st, tps_hit := hits, role := role,
    original_message_text := "", original_stop_loss := sl,
    original_take_profits := tps }

/-- A concrete scalp leg of message 5 with the given broker ticket. -/
def c6Leg (ticket : Int) : TrackedPosition :=
  mkLeg 5 ticket OrderType.buy 2000 (some 1990) [2010] PositionStatus.opened
    [] TradeRole.scalp

/-- A reachable state with a stale index entry: `add_position` for ticket 2
overwrites the scalp slot holding ticket 1 but never removes ticket 1 from
the reverse index. -/
def c6Stale : BotState :=
  (emptiedState.add_position (c6Leg 1) TradeRole.scalp).add_position
    (c6Leg 2) TradeRole.scalp

/-- A well-formed one-dual state whose reverse index already matches the
rebuilt one. -/
def c6Wf : BotState :=
  { positions := [(5, DualPosition.from_single (c6Leg 1))],
    ticket_to_msg_id := [(1, 5)],
    last_signal_msg_id := some 5 }

/-- A concrete one-entry version-1 positions map. -/
def c6V1 : List (Int × TrackedPosition) := [(9, c6Leg 3)]

theorem dlookup_dinsert_self {α : Type} (l : List (Int × α)) (k : Int) (v : α) :
    dlookup (dinsert l k v) k = some v := by
  induction l with
  | nil => simp [dinsert, dlookup]
  | cons hd tl ih =>
    obtain ⟨k0, v0⟩ := hd
    by_cases h : k0 = k
    · simp [dinsert, dlookup, h]
    · simp [dinsert, dlookup, h, ih]

theorem dlookup_dinsert_ne {α : Type} (l : List (Int × α)) {k k' : Int} (v : α)
    (h : k' ≠ k) : dlookup (dinsert l k v) k' = dlookup l k' := by
  have h' : ¬(k = k') := fun hh => h hh.symm
  induction l with
  | nil => simp [dinsert, dlookup, h']
  | cons hd tl ih =>
    obtain ⟨k0, v0⟩ := hd
    by_cases h0 : k0 = k
    · subst h0
      simp [dinsert, dlookup, h']
    · simp only [dinsert, if_neg h0, dlookup]
      by_cases h1 : k0 = k'
      · simp [h1]
      · simp [h1, ih]

theorem dinsert_fresh {α : Type} (l : List (Int × α)) {k : Int} (v : α)
    (h : k ∉ dkeys l) : dinsert l k v = l ++ [(k, v)] := by
  induction l with
  | nil => simp [dinsert]
  | cons hd tl ih =>
    obtain ⟨k0, v0⟩ := hd
    simp only [dkeys, List.map_cons, List.mem_cons] at h
    push_neg at h
    have h0 : ¬(k0 = k) := fun hh => h.1 hh.symm
    simp only [dinsert, if_neg h0, List.cons_append, List.cons.injEq, true_and]
    exact ih h.2

theorem dpop_not_mem {α : Type} (l : List (Int × α)) {k : Int}
    (h : k ∉ dkeys l) : dpop l k = l := by
  induction l with
  | nil => simp [dpop]
  | cons hd tl ih =>
    obtain ⟨k0, v0⟩ := hd
    simp only [dkeys, List.map_cons, List.mem_cons] at h
    push_neg at h
    have h0 : ¬(k0 = k) := fun hh => h.1 hh.symm
    simp [dpop, h0, ih h.2]

theorem dlookup_dpop_ne {α : Type} (l : List (Int × α)) {k k' : Int}
    (h : k' ≠ k) : dlookup (dpop l k) k' = dlookup l k' := by
  induction l with
  | nil => simp [dpop]
  | cons hd tl ih =>
    obtain ⟨k0, v0⟩ := hd
    by_cases h0 : k0 = k
    · subst h0
      have h' : ¬(k0 = k') := fun hh => h (hh.symm)
      simp [dpop, dlookup, h']
    · simp only [dpop, if_neg h0, dlookup]
      by_cases h1 : k0 = k'
      · simp [h1]
      · simp [h1, ih]

theorem dpop_sublist {α : Type} (l : List (Int × α)) (k : Int) :
    (dpop l k).Sublist l := by
  induction l with
  | nil => simp [dpop]
  | cons hd tl ih =>
    obtain ⟨k0, v0⟩ := hd
    by_cases h0 : k0 = k
    · simp [dpop, h0, List.sublist_cons_self]
    · simpa [dpop, h0] using ih.cons₂ (k0, v0)

theorem dkeys_sublist_of_sublist {α : Type} {l l' : List (Int × α)}
    (h : l'.Sublist l) : (dkeys l').Sublist (dkeys l) :=
  h.map Prod.fst

theorem dlookup_dpop_self {α : Type} (l : List (Int × α)) (k : Int)
    (h : (dkeys l).Nodup) : dlookup (dpop l k) k = none := by
  induction l with
  | nil => simp [dpop, dlookup]
  | cons hd tl ih =>
    obtain ⟨k0, v0⟩ := hd
    simp only [dkeys, List.map_cons, List.nodup_cons] at h
    by_cases h0 : k0 = k
    · subst h0
      simp only [dpop, if_pos rfl]
      have hnm : ∀ x ∈ tl, x.1 ≠ k0 := by
        intro x hx heq
        exact h.1 (by simpa [dkeys, heq] using List.mem_map_of_mem Prod.fst hx)
      clear ih h
      induction tl with
      | nil => simp [dlookup]
      | cons hd2 tl2 ih2 =>
        simp only [dlookup]
        rw [if_neg (hnm hd2 (by simp))]
        exact ih2 (fun x hx => hnm x (by simp [hx]))
    · simp only [dpop, if_neg h0, dlookup, if_neg h0]
      exact ih h.2

theorem dlookup_isSome_iff_mem {α : Type} (l : List (Int × α)) (k : Int) :
    (dlookup l k).isSome = true ↔ k ∈ dkeys l := by
  induction l with
  | nil => simp [dlookup, dkeys]
  | cons hd tl ih =>
    obtain ⟨k0, v0⟩ := hd
    by_cases h0 : k0 = k
    · simp [dlookup, h0, dkeys]
    · have h0' : ¬(k = k0) := fun hh => h0 hh.symm
      simp only [dlookup, if_neg h0, dkeys, List.map_cons, List.mem_cons]
      rw [ih]
      simp [dkeys, h0']

theorem profSide_decide (is_buy : Bool) (entry t : ℚ) :
    (if is_buy then decide (entry < t) else decide (t < entry)) = true ↔
      profSide is_buy entry t := by
  cases is_buy <;> simp [profSide]

theorem find_first_projection (is_buy : Bool) (entry : ℚ) (pre post : List ℚ)
    (tp : ℚ) (hpre : ∀ t ∈ pre, ¬ profSide is_buy entry t)
    (htp : profSide is_buy entry tp) :
    (pre ++ tp :: post).find?
        (fun t => if is_buy then decide (entry < t) else decide (t < entry)) =
      some tp := by
  induction pre with
  | nil =>
    simp only [List.nil_append]
    exact List.find?_cons_of_pos _ ((profSide_decide is_buy entry tp).mpr htp)
  | cons hd tl ih =>
    simp only [List.cons_append]
    have hhd : ¬ profSide is_buy entry hd := hpre hd (by simp)
    rw [List.find?_cons_of_neg _ (by
      intro hcontra
      exact hhd ((profSide_decide is_buy entry hd).mp hcontra))]
    exact ih (fun t ht => hpre t (by simp [ht]))

/-- Claim C10: find_valid_tp returns the first listed take-profit still
on the profitable side of entry; when every listed TP has been passed
by price it falls back to the synthetic 1:1 risk/reward target from the
stop-loss distance with a non-null warning; with no stop-loss available
it returns no TP with a warning; and on BUY entry=2970,
TPs=[2850,2900,2950], SL=2920 it returns 3020 with a non-null warning. -/
theorem C10_find_valid_tp :
    (∀ (is_buy : Bool) (entry : ℚ) (pre post : List ℚ) (tp : ℚ) (sl : Option ℚ),
      (∀ t ∈ pre, ¬ profSide is_buy entry t) → profSide is_buy entry tp →
      (find_valid_tp is_buy entry (pre ++ tp :: post) sl).1 = some tp) ∧
    (∀ (is_buy : Bool) (entry : ℚ) (tps : List ℚ) (slv : ℚ),
      (∀ t ∈ tps, ¬ profSide is_buy entry t) →
      (find_valid_tp is_buy entry tps (some slv)).1 =
          some (if is_buy then entry + qabs (entry - slv) else entry - qabs (entry - slv)) ∧
        (find_valid_tp is_buy entry tps (some slv)).2 ≠ none) ∧
    (∀ (is_buy : Bool) (entry : ℚ) (tps : List ℚ),
      (∀ t ∈ tps, ¬ profSide is_buy entry t) →
      (find_valid_tp is_buy entry tps none).1 = none ∧
        (find_valid_tp is_buy entry tps none).2 ≠ none) ∧
    ((find_valid_tp true 2970 [2850, 2900, 2950] (some 2920)).1 = some 3020 ∧
      (find_valid_tp true 2970 [2850, 2900, 2950] (some 2920)).2 ≠ none) := by
  refine ⟨?_, ?_, ?_, ?_⟩
  · intro is_buy entry pre post tp sl hpre htp
    unfold find_valid_tp
    rw [find_first_projection is_buy entry pre post tp hpre htp]
  · intro is_buy entry tps slv hall
    have hnone : tps.find?
        (fun t => if is_buy then decide (entry < t) else decide (t < entry)) = none := by
      rw [List.find?_eq_none]
      intro t ht hcontra
      exact hall t ht ((profSide_decide is_buy entry t).mp hcontra)
    unfold find_valid_tp
    rw [hnone]
    simp
  · intro is_buy entry tps hall
    have hnone : tps.find?
        (fun t => if is_buy then decide (entry < t) else decide (t < entry)) = none := by
      rw [List.find?_eq_none]
      intro t ht hcontra
      exact hall t ht ((profSide_decide is_buy entry t).mp hcontra)
    unfold find_valid_tp
    rw [hnone]
    simp
  · constructor
    · norm_num [find_valid_tp, List.find?, qabs]
    · norm_num [find_valid_tp, List.find?, qabs]
      intro h
      exact Option.noConfusion h

/-- Witness for C10 at concrete inputs: with entry 2870 between the first
and second listed TP, the second TP (2900) is picked. -/
theorem C10_find_valid_tp_witness :
    (find_valid_tp true 2870 [2850, 2900, 2950] (some 2800)).1 = some 2900 := by
  have h := C10_find_valid_tp.1 true 2870 [2850] [2950] 2900 (some 2800)
    (by
      intro t ht
      simp only [List.mem_singleton] at ht
      subst ht
      simp [profSide]
      norm_num)
    (by simp [profSide]; norm_num)
  simpa using h

/-- Claim C9 counterexample: a complete dual-leg signal listing exactly
one take-profit gives the runner no take-profit at all, although the
last element of the list exists (2010) and nothing is pending. -/
theorem C9_counterexample :
    DualTPStrategy.get_trades_to_open
        { symbol := "XAUUSD", order_type := .buy, entry_price := some 2000,
          stop_loss := some 1990, take_profits := [2010],
          message_type := .newSignalComplete, is_complete := true } =
      [{ role := .scalp, tp := some 2010, sl := some 1990 },
       { role := .runner, tp := none, sl := some 1990 }] ∧
    ([2010] : List ℚ).getLast? = some 2010 := by
  constructor <;> decide

/-- Claim C9 as amended: for non-re-entry signals the dual-leg plan is
exactly a scalp leg with the first listed take-profit and a runner leg
with the last listed take-profit, except that a one-element list gives
the runner none; both legs carry the signal stop-loss; and the
[2010, 2020] scenario yields scalp 2010 and runner 2020. -/
theorem C9_dual_leg_plan :
    (∀ sig : TradeSignal, sig.message_type ≠ MessageType.reEntry →
      DualTPStrategy.get_trades_to_open sig =
        [{ role := .scalp, tp := sig.take_profits.head?, sl := sig.stop_loss },
         { role := .runner,
           tp := if sig.take_profits.length = 1 then none
                 else sig.take_profits.getLast?,
           sl := sig.stop_loss }]) ∧
    DualTPStrategy.get_trades_to_open
        { symbol := "XAUUSD", order_type := .buy, entry_price := some 2000,
          stop_loss := some 1990, take_profits := [2010, 2020],
          message_type := .newSignalComplete, is_complete := true } =
      [{ role := .scalp, tp := some 2010, sl := some 1990 },
       { role := .runner, tp := some 2020, sl := some 1990 }] := by
  constructor
  · intro sig hre
    unfold DualTPStrategy.get_trades_to_open
    rw [if_neg hre]
    rcases h : sig.take_profits with _ | ⟨a, _ | ⟨b, rest⟩⟩ <;> simp
  · decide

/-- Witness for C9 at a concrete non-re-entry signal with three TPs: the
runner takes the last one. -/
theorem C9_dual_leg_plan_witness :
    DualTPStrategy.get_trades_to_open
        { symbol := "EURUSD", order_type := .sell, entry_price := some 100,
          stop_loss := some 101, take_profits := [99, 98, 97],
          message_type := .newSignalComplete, is_complete := true } =
      [{ role := .scalp, tp := some 99, sl := some 101 },
       { role := .runner, tp := some 97, sl := some 101 }] := by
  have h := C9_dual_leg_plan.1
    { symbol := "EURUSD", order_type := .sell, entry_price := some 100,
      stop_loss := some 101, take_profits := [99, 98, 97],
      message_type := .newSignalComplete, is_complete := true }
    (by decide)
  simpa using h

/-- Claim C1 counterexample: a RE_ENTRY whose target has one profitable
open leg (ticket 1) and one open leg in loss (ticket 2) proceeds: the
profitable scalp leg is closed and a fresh signal is opened, although
the claim requires that nothing be closed or opened when any open leg
is profitable. -/
theorem C1_counterexample :
    (handleReEntry (fun t => t = 1) (fun _ => true) (some 5)
        { symbol := "XAUUSD", order_type := .buy, entry_price := none,
          stop_loss := some 1995, message_type := .reEntry,
          re_entry_price := some 1998 }
        ((({} : BotState).add_position
            (mkLeg 5 1 .buy 2000 (some 1990) [2010, 2020] .opened [] .scalp)
            .scalp).add_position
          (mkLeg 5 2 .buy 2000 (some 1990) [2010, 2020] .opened [] .runner)
          .runner)).2.isSome = true ∧
    ((dlookup (handleReEntry (fun t => t = 1) (fun _ => true) (some 5)
        { symbol := "XAUUSD", order_type := .buy, entry_price := none,
          stop_loss := some 1995, message_type := .reEntry,
          re_entry_price := some 1998 }
        ((({} : BotState).add_position
            (mkLeg 5 1 .buy 2000 (some 1990) [2010, 2020] .opened [] .scalp)
            .scalp).add_position
          (mkLeg 5 2 .buy 2000 (some 1990) [2010, 2020] .opened [] .runner)
          .runner)).1.positions 5).bind DualPosition.scalp).map
        TrackedPosition.status = some PositionStatus.closed ∧
    ((fun t : Int => decide (t = 1)) 1 = true) := by
  refine ⟨by decide, by decide, by decide⟩

/-- Claim C1 as amended: the RE_ENTRY handler proceeds exactly when some
open leg is in loss. If every open leg of the target is currently
profitable (or there is no open leg) the handler changes nothing and
opens nothing; but when at least one open leg is not profitable it
closes every open leg - profitable ones included - and hands a fresh
complete re-entry signal (prior direction, symbol and take-profits, new
entry and stop-loss fallback chain) to the new-signal path. -/
theorem C1_re_entry_gate :
    (∀ (profitable closeOk : Int → Bool) (msgId : Int) (sig : TradeSignal)
        (s : BotState) (dual : DualPosition),
      dlookup s.positions msgId = some dual →
      (∀ p ∈ dual.all_positions,
        p.status ≠ PositionStatus.closed → profitable p.mt5_ticket = true) →
      handleReEntry profitable closeOk (some msgId) sig s = (s, none)) ∧
    (∀ (profitable closeOk : Int → Bool) (m : Int) (sig : TradeSignal)
        (P1 P2 : TrackedPosition) (idx : List (Int × Int)) (last : Option Int),
      P1.status = PositionStatus.opened → P2.status = PositionStatus.opened →
      profitable P1.mt5_ticket = true → profitable P2.mt5_ticket = false →
      closeOk P1.mt5_ticket = true → closeOk P2.mt5_ticket = true →
      truthyQ (pyOrQ (pyOrQ sig.new_stop_loss sig.stop_loss) P1.stop_loss) = true →
      handleReEntry profitable closeOk (some m) sig
          { positions := [(m, { telegram_msg_id := m, scalp := some P1,
                                runner := some P2 })],
            ticket_to_msg_id := idx, last_signal_msg_id := last } =
        ({ positions := [(m, { telegram_msg_id := m,
                               scalp := some { P1 with status := PositionStatus.closed },
                               runner := some { P2 with status := PositionStatus.closed } })],
           ticket_to_msg_id := idx, last_signal_msg_id := last },
         some { symbol := pyOrStr sig.symbol P1.symbol,
                order_type := P1.order_type,
                entry_price := sig.re_entry_price,
                stop_loss := pyOrQ (pyOrQ sig.new_stop_loss sig.stop_loss) P1.stop_loss,
                take_profits := P1.take_profits,
                lot_size := sig.lot_size,
                comment := sig.comment,
                confidence := sig.confidence,
                message_type := MessageType.reEntry,
                is_complete := true })) := by
  constructor
  · intro profitable closeOk msgId sig s dual hdual hprof
    have hany :
        (dual.all_positions.filter
            (fun p => p.status ≠ PositionStatus.closed)).any
          (fun p => !profitable p.mt5_ticket) = false := by
      rw [List.any_eq_false]
      intro p hp
      have hmem := List.mem_filter.mp hp
      have hstat : p.status ≠ PositionStatus.closed := by
        simpa using hmem.2
      rw [hprof p hmem.1 hstat]
      simp
    unfold handleReEntry
    simp only [hdual]
    split_ifs with h1 h2
    · rfl
    · rfl
    · exact absurd (by rw [hany]; rfl) h2
  · intro profitable closeOk m sig P1 P2 idx last h1 h2 hp1 hp2 hc1 hc2 hsl
    unfold handleReEntry
    simp only [dlookup, if_pos rfl]
    simp [DualPosition.all_positions, h1, h2, hp1, hp2, hc1, hc2, hsl,
      closeLegIfOk, dinsert, stateSave, BotState.cleanup_old_records,
      MAX_RECORDS]

/-- Witness for C1: with a profitable scalp (ticket 11) and a losing
runner (ticket 12), the handler emits a fresh re-entry signal. -/
theorem C1_re_entry_gate_witness :
    (handleReEntry (fun t => decide (t = 11)) (fun _ => true) (some 7)
        { symbol := "", order_type := .sell, entry_price := none,
          stop_loss := some 1995, message_type := .reEntry }
        { positions := [(7, { telegram_msg_id := 7,
                              scalp := some (mkLeg 7 11 .buy 2000 (some 1990) [2010] .opened [] .scalp),
                              runner := some (mkLeg 7 12 .buy 2000 (some 1990) [2010] .opened [] .runner) })],
          ticket_to_msg_id := [(11, 7), (12, 7)],
          last_signal_msg_id := some 7 }).2.isSome = true := by
  have h := C1_re_entry_gate.2 (fun t => decide (t = 11)) (fun _ => true) 7
    { symbol := "", order_type := .sell, entry_price := none,
      stop_loss := some 1995, message_type := .reEntry }
    (mkLeg 7 11 .buy 2000 (some 1990) [2010] .opened [] .scalp)
    (mkLeg 7 12 .buy 2000 (some 1990) [2010] .opened [] .runner)
    [(11, 7), (12, 7)] (some 7)
    (by decide) (by decide) (by decide) (by decide) (by decide) (by decide)
    (by decide)
  rw [h]
  rfl

/-- Claim C2 counterexample: a BUY runner leg with TP 1 already recorded
as acted-on (tps_hit = [1]) and stored stop-loss 2010 receives a
MODIFICATION carrying stop-loss 1990; the gateway modify succeeds and
the stored stop-loss decreases to 1990 - the unprotective direction for
a BUY - with the acted-on record still present. -/
theorem C2_counterexample :
    ((dlookup (handleModification (fun _ => true) (some 5)
        { symbol := "XAUUSD", order_type := .buy, entry_price := none,
          stop_loss := some 1990, message_type := .modification }
        (({} : BotState).add_position
          (mkLeg 5 2 .buy 2000 (some 2010) [2010, 2020] .opened [1] .runner)
          .runner)).positions 5).bind DualPosition.runner).map
        (fun p => (p.stop_loss, p.tps_hit, p.order_type)) =
      some (some 1990, [1], OrderType.buy) ∧
    ((1990 : ℚ) < 2010) := by
  constructor
  · decide
  · norm_num

/-- Claim C2 as amended: a handler-driven stop-loss update overwrites
the stored value with the requested one whenever the gateway confirms
the modification, regardless of the leg's direction and of any recorded
take-profit hits; the MODIFICATION handler in particular stores
`new_stop_loss or stop_loss or previous` on every open leg. No
monotonicity is enforced once tps_hit is non-empty. -/
theorem C2_sl_overwrite :
    ∀ (modifyOk : Int → Bool) (m : Int) (sig : TradeSignal)
      (leg : TrackedPosition) (idx : List (Int × Int)) (last : Option Int),
      leg.status = PositionStatus.opened → modifyOk leg.mt5_ticket = true →
      ((dlookup (handleModification modifyOk (some m) sig
          { positions := [(m, { telegram_msg_id := m, scalp := none,
                                runner := some leg })],
            ticket_to_msg_id := idx, last_signal_msg_id := last }).positions
          m).bind DualPosition.runner).map TrackedPosition.stop_loss =
        some (pyOrQ (pyOrQ sig.new_stop_loss sig.stop_loss) leg.stop_loss) := by
  intro modifyOk m sig leg idx last hstat hok
  unfold handleModification
  simp only [dlookup, if_pos rfl]
  simp [modifyLeg, hstat, hok, dinsert, stateSave, BotState.cleanup_old_records,
    MAX_RECORDS, dlookup]

/-- Witness for C2: a concrete BUY runner with tps_hit = [1] and SL 2010
modified down to 1990. -/
theorem C2_sl_overwrite_witness :
    ((dlookup (handleModification (fun _ => true) (some 9)
        { symbol := "XAUUSD", order_type := .buy, entry_price := none,
          stop_loss := some 1990, message_type := .modification }
        { positions := [(9, { telegram_msg_id := 9, scalp := none,
                              runner := some (mkLeg 9 4 .buy 2000 (some 2010) [2010] .opened [1] .runner) })],
          ticket_to_msg_id := [(4, 9)], last_signal_msg_id := some 9 }).positions
        9).bind DualPosition.runner).map TrackedPosition.stop_loss =
      some (some 1990) := by
  have h := C2_sl_overwrite (fun _ => true) 9
    { symbol := "XAUUSD", order_type := .buy, entry_price := none,
      stop_loss := some 1990, message_type := .modification }
    (mkLeg 9 4 .buy 2000 (some 2010) [2010] .opened [1] .runner)
    [(4, 9)] (some 9) (by decide) (by decide)
  rw [h]
  decide

/-- Claim C3 counterexample: the same TP1 PROFIT_NOTIFICATION processed
twice against an open runner (gateway says the position still exists
and both breakeven moves succeed) records the number 1 twice in
tps_hit, not at most once. -/
theorem C3_counterexample :
    ((dlookup (handleProfitNotification (fun _ => true) (fun _ => true)
        (fun _ => true) (some 5)
        { symbol := "XAUUSD", order_type := .buy, entry_price := none,
          stop_loss := none, message_type := .profitNotification,
          tp_hit_number := some 1 }
        (handleProfitNotification (fun _ => true) (fun _ => true)
          (fun _ => true) (some 5)
          { symbol := "XAUUSD", order_type := .buy, entry_price := none,
            stop_loss := none, message_type := .profitNotification,
            tp_hit_number := some 1 }
          (({} : BotState).add_position
            (mkLeg 5 2 .buy 2000 (some 1990) [2010, 2020] .opened [] .runner)
            .runner))).positions 5).bind DualPosition.runner).map
        (fun p => (p.tps_hit, p.stop_loss)) =
      some ([1, 1], some 2000) := by
  decide

/-- Claim C3 as amended: on the runner breakeven path a duplicate TP1
notification is value-idempotent for the stored stop-loss (both
handlings set it to the leg entry price) but not for the acted-on list:
each successful handling appends the TP number again, so tps_hit gains
one copy of the number per notification. (The scalp verify-closed path
does record at most once, because the leg becomes CLOSED and later
duplicates are skipped.) -/
theorem C3_duplicate_tp_hit :
    ∀ (tickEx moveOk closeOk : Int → Bool) (m : Int) (sig : TradeSignal)
      (leg : TrackedPosition) (idx : List (Int × Int)) (last : Option Int),
      sig.tp_hit_number = some 1 → leg.status = PositionStatus.opened →
      tickEx leg.mt5_ticket = true → moveOk leg.mt5_ticket = true →
      ((dlookup (handleProfitNotification tickEx moveOk closeOk (some m) sig
          { positions := [(m, { telegram_msg_id := m, scalp := none,
                                runner := some leg })],
            ticket_to_msg_id := idx, last_signal_msg_id := last }).positions
          m).bind DualPosition.runner).map
          (fun p => (p.tps_hit, p.stop_loss)) =
        some (leg.tps_hit ++ [1], some leg.entry_price) ∧
      ((dlookup (handleProfitNotification tickEx moveOk closeOk (some m) sig
          (handleProfitNotification tickEx moveOk closeOk (some m) sig
            { positions := [(m, { telegram_msg_id := m, scalp := none,
                                  runner := some leg })],
              ticket_to_msg_id := idx, last_signal_msg_id := last })).positions
          m).bind DualPosition.runner).map
          (fun p => (p.tps_hit, p.stop_loss)) =
        some (leg.tps_hit ++ [1, 1], some leg.entry_price) := by
  intro tickEx moveOk closeOk m sig leg idx last htp hstat hex hmove
  have key : ∀ leg' : TrackedPosition,
      leg'.status = PositionStatus.opened → tickEx leg'.mt5_ticket = true →
      moveOk leg'.mt5_ticket = true →
      handleProfitNotification tickEx moveOk closeOk (some m) sig
          { positions := [(m, { telegram_msg_id := m, scalp := none,
                                runner := some leg' })],
            ticket_to_msg_id := idx, last_signal_msg_id := last } =
        { positions := [(m, { telegram_msg_id := m, scalp := none,
                              runner := some { leg' with
                                stop_loss := some leg'.entry_price,
                                tps_hit := leg'.tps_hit ++ [1] } })],
          ticket_to_msg_id := idx, last_signal_msg_id := last } := by
    intro leg' hstat' hex' hmove'
    unfold handleProfitNotification
    have hig : DualTPStrategy.should_ignore_profit_message sig = false := by
      simp [DualTPStrategy.should_ignore_profit_message, htp]
    simp only [hig, dlookup, if_pos rfl]
    simp [DualPosition.is_closed, DualPosition.all_positions, hstat',
      DualTPStrategy.on_tp_hit, htp, execProfitAction, DualPosition.get_by_role,
      hex', hmove', truthyQ, truthyI, DualPosition.setRole, dinsert, stateSave,
      BotState.cleanup_old_records, MAX_RECORDS]
  constructor
  · rw [key leg hstat hex hmove]
    simp [dlookup]
  · rw [key leg hstat hex hmove]
    rw [key
        { leg with
          stop_loss := some leg.entry_price, tps_hit := leg.tps_hit ++ [1] }
        (by simpa using hstat) (by simpa using hex) (by simpa using hmove)]
    simp [dlookup]

/-- Witness for C3: a concrete open runner receiving the same TP1
notification twice ends with tps_hit = [1, 1] and SL at entry. -/
theorem C3_duplicate_tp_hit_witness :
    ((dlookup (handleProfitNotification (fun _ => true) (fun _ => true)
        (fun _ => true) (some 5)
        { symbol := "XAUUSD", order_type := .buy, entry_price := none,
          stop_loss := none, message_type := .profitNotification,
          tp_hit_number := some 1 }
        (handleProfitNotification (fun _ => true) (fun _ => true)
          (fun _ => true) (some 5)
          { symbol := "XAUUSD", order_type := .buy, entry_price := none,
            stop_loss := none, message_type := .profitNotification,
            tp_hit_number := some 1 }
          { positions := [(5, { telegram_msg_id := 5, scalp := none,
                                runner := some (mkLeg 5 2 .buy 2000 (some 1990) [2010, 2020] .opened [] .runner) })],
            ticket_to_msg_id := [(2, 5)],
            last_signal_msg_id := some 5 })).positions 5).bind
        DualPosition.runner).map (fun p => (p.tps_hit, p.stop_loss)) =
      some ([1, 1], some 2000) := by
  have h := (C3_duplicate_tp_hit (fun _ => true) (fun _ => true) (fun _ => true)
    5
    { symbol := "XAUUSD", order_type := .buy, entry_price := none,
      stop_loss := none, message_type := .profitNotification,
      tp_hit_number := some 1 }
    (mkLeg 5 2 .buy 2000 (some 1990) [2010, 2020] .opened [] .runner)
    [(2, 5)] (some 5) (by decide) (by decide) (by decide) (by decide)).2
  simpa [mkLeg] using h

/-- Claim C8: an edit mutates positions only when the edited message has
a tracked dual that is not fully closed and arrives within the window
measured from the earliest leg open time; the boundary instant is
within the window (inclusive) while one unit past it is ignored; any
failed check leaves every tracked position unchanged. The concrete
conjuncts show an edit exactly at opened+window mutating the stop-loss
and the same edit one unit later leaving the store untouched. -/
theorem C8_edit_window :
    (∀ (ok : Int → Bool) (now w msgId : Int) (parsed : Option TradeSignal)
        (text : String) (s : BotState),
      dlookup s.positions msgId = none →
      processEditedMessage ok now w msgId parsed text s = s) ∧
    (∀ (ok : Int → Bool) (now w msgId : Int) (parsed : Option TradeSignal)
        (text : String) (s : BotState) (dual : DualPosition),
      dlookup s.positions msgId = some dual → dual.is_closed = true →
      processEditedMessage ok now w msgId parsed text s = s) ∧
    (∀ (ok : Int → Bool) (now w msgId : Int) (parsed : Option TradeSignal)
        (text : String) (s : BotState) (dual : DualPosition),
      dlookup s.positions msgId = some dual → w < now - earliestOpened dual →
      processEditedMessage ok now w msgId parsed text s = s) ∧
    (((dlookup (processEditedMessage (fun _ => true) 1900 1800 5
        (some { symbol := "XAUUSD", order_type := .buy, entry_price := none,
                stop_loss := some 1985, take_profits := [2010] }) "edit"
        { positions := [(5, { telegram_msg_id := 5,
                              scalp := some (mkLeg 5 1 .buy 2000 (some 1990) [2010] .opened [] .scalp),
                              runner := none })],
          ticket_to_msg_id := [(1, 5)],
          last_signal_msg_id := some 5 }).positions 5).bind
        DualPosition.scalp).map TrackedPosition.stop_loss =
          some (some 1985) ∧
      processEditedMessage (fun _ => true) 1901 1800 5
        (some { symbol := "XAUUSD", order_type := .buy, entry_price := none,
                stop_loss := some 1985, take_profits := [2010] }) "edit"
        { positions := [(5, { telegram_msg_id := 5,
                              scalp := some (mkLeg 5 1 .buy 2000 (some 1990) [2010] .opened [] .scalp),
                              runner := none })],
          ticket_to_msg_id := [(1, 5)],
          last_signal_msg_id := some 5 } =
        { positions := [(5, { telegram_msg_id := 5,
                              scalp := some (mkLeg 5 1 .buy 2000 (some 1990) [2010] .opened [] .scalp),
                              runner := none })],
          ticket_to_msg_id := [(1, 5)],
          last_signal_msg_id := some 5 }) := by
  refine ⟨?_, ?_, ?_, ?_, ?_⟩
  · intro ok now w msgId parsed text s hnone
    unfold processEditedMessage
    simp only [hnone]
  · intro ok now w msgId parsed text s dual hdual hclosed
    unfold processEditedMessage
    simp [hdual, hclosed]
  · intro ok now w msgId parsed text s dual hdual hwin
    unfold processEditedMessage
    simp only [hdual]
    by_cases h1 : dual.is_closed = true
    · simp [h1]
    · simp [h1, hwin]
  · norm_num [processEditedMessage, dlookup, DualPosition.is_closed,
      DualPosition.all_positions, mkLeg, earliestOpened, applyEditChanges,
      truthyQ, pyOrQ, qabs, editLeg, dinsert, stateSave,
      BotState.cleanup_old_records, MAX_RECORDS]
    decide
  · norm_num [processEditedMessage, dlookup, DualPosition.is_closed,
      DualPosition.all_positions, mkLeg, earliestOpened]

/-- Witness for C8: a missing tracked position makes the edit a no-op. -/
theorem C8_edit_window_witness :
    processEditedMessage (fun _ => true) 50 1800 42 none "text"
        { positions := [], ticket_to_msg_id := [],
          last_signal_msg_id := none } =
      { positions := [], ticket_to_msg_id := [], last_signal_msg_id := none } :=
  C8_edit_window.1 (fun _ => true) 50 1800 42 none "text"
    { positions := [], ticket_to_msg_id := [], last_signal_msg_id := none }
    (by decide)

theorem dinsert_lookup_self {α : Type} (l : List (Int × α)) (k : Int) (v : α)
    (h : dlookup l k = some v) : dinsert l k v = l := by
  induction l with
  | nil => simp [dlookup] at h
  | cons hd tl ih =>
    obtain ⟨k0, v0⟩ := hd
    by_cases h0 : k0 = k
    · subst h0
      simp [dlookup] at h
      simp [dinsert, h]
    · simp only [dlookup, if_neg h0] at h
      simp [dinsert, h0, ih h]

theorem cleanup_small (s : BotState)
    (h : s.positions.length ≤ MAX_RECORDS) : s.cleanup_old_records = s := by
  unfold BotState.cleanup_old_records
  rw [if_pos h]

/-- Claim C4 counterexample: completing the PENDING_COMPLETION dual of
message 10 with the complete signal of message 20 while the gateway
modify FAILS still reassigns the store key from 10 to 20 and overwrites
the leg's original-signal snapshot with the completing signal; only the
SL/TP/status stay untouched. -/
theorem C4_counterexample :
    dlookup (completePendingPosition
        (fun t => if t = 1 then some (⟨"XAUUSD", 2000, true⟩ : MT5Pos) else none)
        (fun _ => false) 20 10
        { symbol := "XAUUSD", order_type := .buy, entry_price := some 2000,
          stop_loss := some 1990, take_profits := [2010, 2020],
          comment := "completion", message_type := .newSignalComplete }
        { positions := [(10, { telegram_msg_id := 10,
                               scalp := some (mkLeg 10 1 .buy 2000 none [] .pendingCompletion [] .scalp),
                               runner := none })],
          ticket_to_msg_id := [(1, 10)],
          last_signal_msg_id := some 10 }).1.positions 10 = none ∧
    ((dlookup (completePendingPosition
        (fun t => if t = 1 then some (⟨"XAUUSD", 2000, true⟩ : MT5Pos) else none)
        (fun _ => false) 20 10
        { symbol := "XAUUSD", order_type := .buy, entry_price := some 2000,
          stop_loss := some 1990, take_profits := [2010, 2020],
          comment := "completion", message_type := .newSignalComplete }
        { positions := [(10, { telegram_msg_id := 10,
                               scalp := some (mkLeg 10 1 .buy 2000 none [] .pendingCompletion [] .scalp),
                               runner := none })],
          ticket_to_msg_id := [(1, 10)],
          last_signal_msg_id := some 10 }).1.positions 20).bind
        DualPosition.scalp).map
        (fun p => (p.status, p.stop_loss, p.original_stop_loss,
          p.original_message_text, p.telegram_msg_id)) =
      some (PositionStatus.pendingCompletion, none, some 1990,
        "completion", 20) := by
  constructor
  · norm_num [completePendingPosition, dlookup, dinsert, dpop,
      BotState.reassign_position, BotState.updateAt, completeLeg,
      validate_sl_tp, stateSave, BotState.cleanup_old_records, MAX_RECORDS,
      DualPosition.all_positions, mkLeg, Option.orElse]
  · norm_num [completePendingPosition, dlookup, dinsert, dpop,
      BotState.reassign_position, BotState.updateAt, completeLeg,
      validate_sl_tp, stateSave, BotState.cleanup_old_records, MAX_RECORDS,
      DualPosition.all_positions, mkLeg, Option.orElse]

/-- Claim C4 as amended: a failed gateway modify commits nothing to the
leg it targeted - the MODIFICATION per-leg update and the completion
per-leg update both return the leg unchanged on failure, and a
MODIFICATION whose every leg fails leaves the whole store unchanged.
The completion handler however reassigns the dual to the completing
message id and rewrites the original-signal snapshot BEFORE the gateway
call, deliberately, so those two mutations survive a gateway failure. -/
theorem C4_commit_on_success :
    (∀ (ok : Int → Bool) (sig : TradeSignal) (new_sl : Option ℚ)
        (pos : TrackedPosition),
      ok pos.mt5_ticket = false → modifyLeg ok sig new_sl pos = pos) ∧
    (∀ (getPos : Int → Option MT5Pos) (ok : Int → Bool) (sig : TradeSignal)
        (pos : TrackedPosition) (mp : MT5Pos),
      getPos pos.mt5_ticket = some mp → ok pos.mt5_ticket = false →
      completeLeg getPos ok sig pos = pos) ∧
    (∀ (ok : Int → Bool) (m : Int) (sig : TradeSignal) (s : BotState)
        (dual : DualPosition),
      dlookup s.positions m = some dual →
      s.positions.length ≤ MAX_RECORDS →
      (∀ p ∈ dual.all_positions, ok p.mt5_ticket = false) →
      handleModification ok (some m) sig s = s) := by
  refine ⟨?_, ?_, ?_⟩
  · intro ok sig new_sl pos hok
    unfold modifyLeg
    by_cases hst : pos.status = PositionStatus.closed
    · rw [if_pos hst]
    · rw [if_neg hst, if_neg (by simp [hok])]
  · intro getPos ok sig pos mp hget hok
    unfold completeLeg
    by_cases hst : pos.status = PositionStatus.closed
    · rw [if_pos hst]
    · rw [if_neg hst]
      simp only [hget]
      by_cases hv : (validate_sl_tp mp.is_buy mp.price_open sig.stop_loss
          (if pos.role = TradeRole.runner then sig.take_profits.getLast?
           else sig.take_profits.head?)).1 = none ∧
          (validate_sl_tp mp.is_buy mp.price_open sig.stop_loss
          (if pos.role = TradeRole.runner then sig.take_profits.getLast?
           else sig.take_profits.head?)).2.1 = none
      · rw [if_pos hv]
      · rw [if_neg hv, if_neg (by simp [hok])]
  · intro ok m sig s dual hdual hlen hfail
    have hscalp : dual.scalp.map
        (modifyLeg ok sig (pyOrQ sig.new_stop_loss sig.stop_loss)) =
        dual.scalp := by
      cases h : dual.scalp with
      | none => rfl
      | some p =>
        have hp : p ∈ dual.all_positions := by
          simp [DualPosition.all_positions, h]
        have := hfail p hp
        unfold modifyLeg
        by_cases hst : p.status = PositionStatus.closed
        · simp [hst]
        · simp [hst, this]
    have hrunner : dual.runner.map
        (modifyLeg ok sig (pyOrQ sig.new_stop_loss sig.stop_loss)) =
        dual.runner := by
      cases h : dual.runner with
      | none => rfl
      | some p =>
        have hp : p ∈ dual.all_positions := by
          simp [DualPosition.all_positions, h]
        have := hfail p hp
        unfold modifyLeg
        by_cases hst : p.status = PositionStatus.closed
        · simp [hst]
        · simp [hst, this]
    unfold handleModification
    simp only [hdual, hscalp, hrunner]
    have hdd : dinsert s.positions m
        { telegram_msg_id := dual.telegram_msg_id,
          scalp := dual.scalp,
          runner := dual.runner } = s.positions :=
      dinsert_lookup_self s.positions m dual hdual
    rw [hdd]
    exact cleanup_small s hlen

/-- Witness for C4: a concrete one-leg store whose gateway rejects every
modify is left unchanged by a MODIFICATION. -/
theorem C4_commit_on_success_witness :
    handleModification (fun _ => false) (some 9)
        { symbol := "XAUUSD", order_type := .buy, entry_price := none,
          stop_loss := some 1700, message_type := .modification }
        { positions := [(9, { telegram_msg_id := 9, scalp := none,
                              runner := some (mkLeg 9 4 .buy 2000 (some 2010) [2010] .opened [1] .runner) })],
          ticket_to_msg_id := [(4, 9)], last_signal_msg_id := some 9 } =
      { positions := [(9, { telegram_msg_id := 9, scalp := none,
                            runner := some (mkLeg 9 4 .buy 2000 (some 2010) [2010] .opened [1] .runner) })],
        ticket_to_msg_id := [(4, 9)], last_signal_msg_id := some 9 } := by
  exact C4_commit_on_success.2.2 (fun _ => false) 9
    { symbol := "XAUUSD", order_type := .buy, entry_price := none,
      stop_loss := some 1700, message_type := .modification }
    { positions := [(9, { telegram_msg_id := 9, scalp := none,
                          runner := some (mkLeg 9 4 .buy 2000 (some 2010) [2010] .opened [1] .runner) })],
      ticket_to_msg_id := [(4, 9)], last_signal_msg_id := some 9 }
    { telegram_msg_id := 9, scalp := none,
      runner := some (mkLeg 9 4 .buy 2000 (some 2010) [2010] .opened [1] .runner) }
    (by decide) (by decide) (by decide)

/-- Claim C7 counterexample: `load` does raise. An unreadable state file
raises OSError out of the call (the except clause names only
JSONDecodeError, KeyError and ValueError), and a JSON document whose
top level is not an object raises AttributeError from `data.get`; in
neither case is the store reset to empty with a warning. -/
theorem C7_counterexample :
    BotState.load .unreadable
        { positions := [(3, { telegram_msg_id := 3, scalp := none,
                              runner := none })],
          ticket_to_msg_id := [], last_signal_msg_id := some 3 } =
      .error .osErr ∧
    BotState.load (.doc (.jarr []))
        { positions := [], ticket_to_msg_id := [],
          last_signal_msg_id := none } =
      .error .attrErr := by
  exact ⟨rfl, rfl⟩

/-- Claim C7 as amended: the caught kinds never escape - a missing file
leaves the store unchanged, malformed JSON resets to the empty state,
and any body failure of a caught kind (JSONDecodeError, KeyError,
ValueError: missing required keys, invalid enum or key values) resets
to the empty state with a warning; but an unreadable file propagates
OSError, and a document failing with any other kind (AttributeError
from a non-object, TypeError from a wrongly typed field) propagates
that exception out of `load`. -/
theorem C7_load_failure_semantics :
    (∀ s : BotState, BotState.load .missing s = .ok s) ∧
    (∀ s : BotState, BotState.load .badJson s = .ok emptiedState) ∧
    (∀ s : BotState, BotState.load .unreadable s = .error .osErr) ∧
    (∀ (j : Json) (s : BotState) (e : PyError),
      BotState.load (.doc j) s = .error e →
      e ≠ .jsonDecode ∧ e ≠ .keyErr ∧ e ≠ .valueErr) ∧
    (∀ (j : Json) (s : BotState) (e : PyError),
      s.load_body j = .error e →
      (e = .jsonDecode ∨ e = .keyErr ∨ e = .valueErr) →
      BotState.load (.doc j) s = .ok emptiedState) := by
  refine ⟨fun s => rfl, fun s => rfl, fun s => rfl, ?_, ?_⟩
  · intro j s e h
    cases hb : s.load_body j with
    | ok s2 =>
      simp only [BotState.load, hb] at h
      exact absurd h (by simp)
    | error e2 =>
      simp only [BotState.load, hb] at h
      by_cases hc : e2 = .jsonDecode ∨ e2 = .keyErr ∨ e2 = .valueErr
      · rw [if_pos hc] at h
        simp at h
      · rw [if_neg hc] at h
        simp only [Except.error.injEq] at h
        subst h
        push_neg at hc
        exact hc
  · intro j s e h hcaught
    simp only [BotState.load, h]
    rw [if_pos hcaught]

/-- Witness for C7: a v2 document whose positions object carries a
non-integer key fails with ValueError, which is caught and resets the
store to empty. -/
theorem C7_load_failure_semantics_witness :
    BotState.load
        (.doc (.jobj [(.sKey "version", .jint 2),
          (.sKey "positions", .jobj [(.sKey "oops", .jobj [])])]))
        { positions := [(3, { telegram_msg_id := 3, scalp := none,
                              runner := none })],
          ticket_to_msg_id := [], last_signal_msg_id := some 3 } =
      .ok emptiedState := by
  exact C7_load_failure_semantics.2.2.2.2
    (.jobj [(.sKey "version", .jint 2),
      (.sKey "positions", .jobj [(.sKey "oops", .jobj [])])])
    { positions := [(3, { telegram_msg_id := 3, scalp := none,
                          runner := none })],
      ticket_to_msg_id := [], last_signal_msg_id := some 3 }
    .valueErr rfl (Or.inr (Or.inr rfl))

theorem ownersCountL_cons (k : Int) (d : DualPosition)
    (l : List (Int × DualPosition)) (t : Int) :
    ownersCountL ((k, d) :: l) t =
      (if t ∈ d.all_tickets then 1 else 0) + ownersCountL l t := by
  unfold ownersCountL
  by_cases h : t ∈ d.all_tickets
  · simp [List.filter_cons, h, Nat.add_comm]
  · simp [List.filter_cons, h]

theorem ownersCountL_append (l1 l2 : List (Int × DualPosition)) (t : Int) :
    ownersCountL (l1 ++ l2) t = ownersCountL l1 t + ownersCountL l2 t := by
  unfold ownersCountL
  simp [List.filter_append]

theorem ownersCountL_nil (t : Int) : ownersCountL [] t = 0 := rfl

theorem ownersCountL_pos_iff (ps : List (Int × DualPosition)) (t : Int) :
    1 ≤ ownersCountL ps t ↔
      ∃ kv ∈ ps, t ∈ kv.2.all_tickets := by
  unfold ownersCountL
  rw [Nat.le_iff_lt_or_eq]
  constructor
  · intro h
    have : (ps.filter (fun kv => kv.2.all_tickets.contains t)) ≠ [] := by
      intro hnil
      rcases h with h | h
      · rw [hnil] at h
        simp at h
      · rw [hnil] at h
        simp at h
    rcases List.exists_mem_of_ne_nil _ this with ⟨kv, hkv⟩
    have := List.mem_filter.mp hkv
    exact ⟨kv, this.1, by simpa using this.2⟩
  · rintro ⟨kv, hmem, hc⟩
    have : kv ∈ ps.filter (fun kv => kv.2.all_tickets.contains t) :=
      List.mem_filter.mpr ⟨hmem, by simpa using hc⟩
    have := List.length_pos.mpr (List.ne_nil_of_mem this)
    omega

theorem dlookup_decomp {α : Type} {l : List (Int × α)} {k : Int} {v : α}
    (h : dlookup l k = some v) :
    ∃ l1 l2, l = l1 ++ (k, v) :: l2 ∧ k ∉ dkeys l1 ∧
      dpop l k = l1 ++ l2 ∧ ∀ w, dinsert l k w = l1 ++ (k, w) :: l2 := by
  induction l with
  | nil => simp [dlookup] at h
  | cons hd tl ih =>
    obtain ⟨k0, v0⟩ := hd
    by_cases h0 : k0 = k
    · subst h0
      simp [dlookup] at h
      subst h
      exact ⟨[], tl, by simp, by simp [dkeys], by simp [dpop], fun w => by simp [dinsert]⟩
    · simp only [dlookup, if_neg h0] at h
      rcases ih h with ⟨l1, l2, heq, hnk, hpop, hins⟩
      refine ⟨(k0, v0) :: l1, l2, by simp [heq], ?_, ?_, ?_⟩
      · simp only [dkeys, List.map_cons, List.mem_cons]
        push_neg
        exact ⟨fun hh => h0 hh.symm, by simpa [dkeys] using hnk⟩
      · simp [dpop, h0, hpop]
      · intro w
        simp [dinsert, h0, hins w]

theorem mem_dkeys_dinsert {α : Type} (l : List (Int × α)) (k x : Int) (v : α) :
    x ∈ dkeys (dinsert l k v) ↔ x ∈ dkeys l ∨ x = k := by
  induction l with
  | nil => simp [dinsert, dkeys]
  | cons hd tl ih =>
    obtain ⟨k0, v0⟩ := hd
    by_cases h0 : k0 = k
    · subst h0
      simp [dinsert, dkeys]
      tauto
    · simp only [dinsert, if_neg h0, dkeys, List.map_cons, List.mem_cons] at ih ⊢
      rw [ih]
      tauto

theorem dkeys_dinsert_nodup {α : Type} (l : List (Int × α)) (k : Int) (v : α)
    (h : (dkeys l).Nodup) : (dkeys (dinsert l k v)).Nodup := by
  induction l with
  | nil => simp [dinsert, dkeys]
  | cons hd tl ih =>
    obtain ⟨k0, v0⟩ := hd
    simp only [dkeys, List.map_cons, List.nodup_cons] at h
    by_cases h0 : k0 = k
    · subst h0
      have hred : dinsert ((k0, v0) :: tl) k0 v = (k0, v) :: tl := by
        simp [dinsert]
      rw [hred]
      simp only [dkeys, List.map_cons, List.nodup_cons]
      exact h
    · simp only [dinsert, if_neg h0, dkeys, List.map_cons, List.nodup_cons]
      refine ⟨?_, ih h.2⟩
      intro hmem
      rcases (mem_dkeys_dinsert tl k k0 v).mp (by simpa [dkeys] using hmem) with hx | hx
      · exact h.1 (by simpa [dkeys] using hx)
      · exact h0 hx

theorem isSome_dlookup_dinsert {α : Type} (l : List (Int × α)) (k t : Int)
    (v : α) :
    (dlookup (dinsert l k v) t).isSome = true ↔
      t = k ∨ (dlookup l t).isSome = true := by
  by_cases h : t = k
  · subst h
    simp [dlookup_dinsert_self]
  · rw [dlookup_dinsert_ne l v h]
    simp [h]

theorem dlookup_foldl_dpop_ne (legs : List TrackedPosition)
    (idx : List (Int × Int)) (t : Int)
    (h : ∀ p ∈ legs, p.mt5_ticket ≠ t) :
    dlookup (legs.foldl (fun idx p => dpop idx p.mt5_ticket) idx) t =
      dlookup idx t := by
  induction legs generalizing idx with
  | nil => rfl
  | cons p rest ih =>
    simp only [List.foldl_cons]
    rw [ih _ (fun q hq => h q (by simp [hq]))]
    exact dlookup_dpop_ne idx (fun hh => h p (by simp) hh.symm)

theorem nodup_foldl_dpop (legs : List TrackedPosition)
    (idx : List (Int × Int)) (h : (dkeys idx).Nodup) :
    (dkeys (legs.foldl (fun idx p => dpop idx p.mt5_ticket) idx)).Nodup := by
  induction legs generalizing idx with
  | nil => exact h
  | cons p rest ih =>
    simp only [List.foldl_cons]
    exact ih _ ((dkeys_sublist_of_sublist (dpop_sublist idx p.mt5_ticket)).nodup h)

theorem dlookup_foldl_dpop_none (legs : List TrackedPosition)
    (idx : List (Int × Int)) (t : Int)
    (h : dlookup idx t = none) :
    dlookup (legs.foldl (fun idx p => dpop idx p.mt5_ticket) idx) t = none := by
  induction legs generalizing idx with
  | nil => exact h
  | cons p rest ih =>
    simp only [List.foldl_cons]
    refine ih _ ?_
    by_cases hp : p.mt5_ticket = t
    · subst hp
      cases hq : dlookup (dpop idx p.mt5_ticket) p.mt5_ticket with
      | none => rfl
      | some q =>
        exfalso
        have hmem : p.mt5_ticket ∈ dkeys (dpop idx p.mt5_ticket) :=
          (dlookup_isSome_iff_mem _ _).mp (by simp [hq])
        have hsub := dkeys_sublist_of_sublist (dpop_sublist idx p.mt5_ticket)
        have : p.mt5_ticket ∈ dkeys idx := hsub.mem hmem
        have := (dlookup_isSome_iff_mem idx p.mt5_ticket).mpr this
        rw [h] at this
        simp at this
    · rw [dlookup_dpop_ne idx (fun hh => hp hh.symm)]
      exact h

theorem dlookup_foldl_dpop_mem (legs : List TrackedPosition)
    (idx : List (Int × Int)) (t : Int) (hnd : (dkeys idx).Nodup)
    (h : ∃ p ∈ legs, p.mt5_ticket = t) :
    dlookup (legs.foldl (fun idx p => dpop idx p.mt5_ticket) idx) t = none := by
  induction legs generalizing idx with
  | nil => simp at h
  | cons p rest ih =>
    simp only [List.foldl_cons]
    by_cases hp : p.mt5_ticket = t
    · subst hp
      exact dlookup_foldl_dpop_none rest _ _ (dlookup_dpop_self idx _ hnd)
    · rcases h with ⟨q, hq, hqt⟩
      rcases List.mem_cons.mp hq with hq1 | hq2
      · exact absurd (hq1 ▸ hqt) hp
      · exact ih _
          ((dkeys_sublist_of_sublist (dpop_sublist idx p.mt5_ticket)).nodup hnd)
          ⟨q, hq2, hqt⟩

theorem dlookup_foldl_dinsert_ne (legs : List TrackedPosition)
    (idx : List (Int × Int)) (k t : Int)
    (h : ∀ p ∈ legs, p.mt5_ticket ≠ t) :
    dlookup (legs.foldl (fun idx p => dinsert idx p.mt5_ticket k) idx) t =
      dlookup idx t := by
  induction legs generalizing idx with
  | nil => rfl
  | cons p rest ih =>
    simp only [List.foldl_cons]
    rw [ih _ (fun q hq => h q (by simp [hq]))]
    exact dlookup_dinsert_ne idx k (fun hh => h p (by simp) hh.symm)

theorem dlookup_foldl_dinsert_mem (legs : List TrackedPosition)
    (idx : List (Int × Int)) (k t : Int)
    (h : ∃ p ∈ legs, p.mt5_ticket = t) :
    dlookup (legs.foldl (fun idx p => dinsert idx p.mt5_ticket k) idx) t =
      some k := by
  induction legs generalizing idx with
  | nil => simp at h
  | cons p rest ih =>
    simp only [List.foldl_cons]
    by_cases hrest : ∃ q ∈ rest, q.mt5_ticket = t
    · exact ih _ hrest
    · rcases h with ⟨q, hq, hqt⟩
      rcases List.mem_cons.mp hq with hq1 | hq2
      · subst hq1
        rw [dlookup_foldl_dinsert_ne rest _ k t (by
          intro r hr hrt
          exact hrest ⟨r, hr, hrt⟩)]
        rw [hqt]
        exact dlookup_dinsert_self idx t k
      · exact absurd ⟨q, hq2, hqt⟩ hrest

theorem isSome_dlookup_foldl_dinsert (legs : List TrackedPosition)
    (idx : List (Int × Int)) (k t : Int) :
    (dlookup (legs.foldl (fun idx p => dinsert idx p.mt5_ticket k) idx) t).isSome
        = true ↔
      (∃ p ∈ legs, p.mt5_ticket = t) ∨ (dlookup idx t).isSome = true := by
  by_cases h : ∃ p ∈ legs, p.mt5_ticket = t
  · rw [dlookup_foldl_dinsert_mem legs idx k t h]
    simp [h]
  · rw [dlookup_foldl_dinsert_ne legs idx k t (by
      intro p hp hpt
      exact h ⟨p, hp, hpt⟩)]
    simp [h]

theorem mem_all_tickets_iff (d : DualPosition) (t : Int) :
    t ∈ d.all_tickets ↔ ∃ p ∈ d.all_positions, p.mt5_ticket = t := by
  unfold DualPosition.all_tickets
  simp [List.mem_map]

theorem isSome_dlookup_idxFold (ps : List (Int × DualPosition))
    (idx : List (Int × Int)) (t : Int) :
    (dlookup (idxFold ps idx) t).isSome = true ↔
      (∃ kv ∈ ps, t ∈ kv.2.all_tickets) ∨ (dlookup idx t).isSome = true := by
  induction ps generalizing idx with
  | nil => simp [idxFold]
  | cons kv rest ih =>
    have hstep : idxFold (kv :: rest) idx =
        idxFold rest (kv.2.all_positions.foldl
          (fun idx p => dinsert idx p.mt5_ticket kv.1) idx) := rfl
    rw [hstep, ih, isSome_dlookup_foldl_dinsert]
    rw [show (∃ p ∈ kv.2.all_positions, p.mt5_ticket = t) ↔ t ∈ kv.2.all_tickets
      from (mem_all_tickets_iff kv.2 t).symm]
    constructor
    · rintro (⟨kv2, h2, ht2⟩ | (h | h))
      · exact Or.inl ⟨kv2, by simp [h2], ht2⟩
      · exact Or.inl ⟨kv, by simp, h⟩
      · exact Or.inr h
    · rintro (⟨kv2, h2, ht2⟩ | h)
      · rcases List.mem_cons.mp h2 with h2 | h2
        · subst h2
          exact Or.inr (Or.inl ht2)
        · exact Or.inl ⟨kv2, h2, ht2⟩
      · exact Or.inr (Or.inr h)

theorem insertDesc_perm (x : Int × DualPosition) (l : List (Int × DualPosition)) :
    (insertDesc x l).Perm (x :: l) := by
  induction l with
  | nil => simp [insertDesc]
  | cons y ys ih =>
    unfold insertDesc
    by_cases h : earliestOpened y.2 < earliestOpened x.2
    · rw [if_pos h]
    · rw [if_neg h]
      exact (ih.cons y).trans (List.Perm.swap x y ys)

theorem foldl_insertDesc_perm (l acc : List (Int × DualPosition)) :
    (l.foldl (fun acc x => insertDesc x acc) acc).Perm (acc ++ l) := by
  induction l generalizing acc with
  | nil => simp
  | cons x xs ih =>
    simp only [List.foldl_cons]
    refine (ih (insertDesc x acc)).trans ?_
    refine (((insertDesc_perm x acc).append_right xs).trans ?_)
    exact List.perm_middle.symm

theorem sortDesc_perm (l : List (Int × DualPosition)) : (sortDesc l).Perm l := by
  simpa using foldl_insertDesc_perm l []

theorem ownersCountL_perm {l1 l2 : List (Int × DualPosition)}
    (h : l1.Perm l2) (t : Int) : ownersCountL l1 t = ownersCountL l2 t := by
  unfold ownersCountL
  exact (h.filter _).length_eq

theorem ownersCountL_sublist {l1 l2 : List (Int × DualPosition)}
    (h : l1.Sublist l2) (t : Int) : ownersCountL l1 t ≤ ownersCountL l2 t := by
  unfold ownersCountL
  exact (h.filter _).length_le

/-- The reverse index rebuilt from a positions list (as in the cleanup,
v2-load and v1-migration loops) carries exactly the tickets owned by a
dual of the list; under unique ownership this is the claim C5 iff. -/
theorem rebuildIdx_iff (ps : List (Int × DualPosition)) (hone : OwnOnceL ps)
    (t : Int) :
    (dlookup (rebuildIdx ps) t).isSome = true ↔ ownersCountL ps t = 1 := by
  have h1 : (dlookup (rebuildIdx ps) t).isSome = true ↔
      (∃ kv ∈ ps, t ∈ kv.2.all_tickets) := by
    have := isSome_dlookup_idxFold ps [] t
    simpa [dlookup] using this
  rw [h1, ← ownersCountL_pos_iff]
  have := hone t
  omega

theorem remove_keeps_index_iff (s : BotState) (m : Int) (hWF : WF s) (t : Int) :
    (dlookup (s.remove_position m).ticket_to_msg_id t).isSome = true ↔
      ownersCountL (s.remove_position m).positions t = 1 := by
  obtain ⟨hnp, hni, hone, hiff⟩ := hWF
  cases hd : dlookup s.positions m with
  | none =>
    unfold BotState.remove_position
    rw [hd]
    exact hiff t
  | some d =>
    obtain ⟨l1, l2, heq, hnk, hpop, hins⟩ := dlookup_decomp hd
    unfold BotState.remove_position
    rw [hd]
    simp only [hpop]
    by_cases ht : t ∈ d.all_tickets
    · have hlook : dlookup (d.all_positions.foldl
          (fun idx p => dpop idx p.mt5_ticket) s.ticket_to_msg_id) t = none :=
        dlookup_foldl_dpop_mem _ _ _ hni ((mem_all_tickets_iff d t).mp ht)
      have hc1 : ownersCountL s.positions t = 1 := by
        have hge : 1 ≤ ownersCountL s.positions t :=
          (ownersCountL_pos_iff _ _).mpr ⟨(m, d), by rw [heq]; simp, ht⟩
        have := hone t
        omega
      have hc0 : ownersCountL (l1 ++ l2) t = 0 := by
        have := hc1
        rw [heq, ownersCountL_append, ownersCountL_cons] at this
        rw [ownersCountL_append]
        rw [if_pos ht] at this
        omega
      rw [hlook, hc0]
      simp
    · have hlook : dlookup (d.all_positions.foldl
          (fun idx p => dpop idx p.mt5_ticket) s.ticket_to_msg_id) t =
          dlookup s.ticket_to_msg_id t := by
        refine dlookup_foldl_dpop_ne _ _ _ ?_
        intro p hp hpt
        exact ht ((mem_all_tickets_iff d t).mpr ⟨p, hp, hpt⟩)
      have hc : ownersCountL (l1 ++ l2) t = ownersCountL s.positions t := by
        rw [heq, ownersCountL_append, ownersCountL_append, ownersCountL_cons,
          if_neg ht]
        omega
      rw [hlook, hc]
      exact hiff t

theorem add_keeps_index_iff (s : BotState) (pos : TrackedPosition)
    (role : TradeRole) (hWF : WF s)
    (hfresh : ownersCountL s.positions pos.mt5_ticket = 0)
    (hslot : ∀ d, dlookup s.positions pos.telegram_msg_id = some d →
      (if role = TradeRole.runner then d.runner = none else d.scalp = none))
    (t : Int) :
    (dlookup (s.add_position pos role).ticket_to_msg_id t).isSome = true ↔
      ownersCountL (s.add_position pos role).positions t = 1 := by
  obtain ⟨hnp, hni, hone, hiff⟩ := hWF
  cases hd : dlookup s.positions pos.telegram_msg_id with
  | none =>
    have hmsg : pos.telegram_msg_id ∉ dkeys s.positions := by
      intro hmem
      have := (dlookup_isSome_iff_mem s.positions pos.telegram_msg_id).mpr hmem
      rw [hd] at this
      simp at this
    unfold BotState.add_position
    simp only [hd]
    by_cases hrole : role = TradeRole.runner
    · simp only [if_pos hrole]
      rw [dinsert_fresh s.positions _ hmsg]
      by_cases htk : t = pos.mt5_ticket
      · subst htk
        rw [dlookup_dinsert_self]
        rw [ownersCountL_append, ownersCountL_cons, hfresh]
        simp [DualPosition.all_tickets, DualPosition.all_positions, ownersCountL]
      · rw [dlookup_dinsert_ne _ _ htk]
        rw [ownersCountL_append, ownersCountL_cons]
        rw [if_neg (by
          simp [DualPosition.all_tickets, DualPosition.all_positions]
          exact fun hh => htk hh)]
        rw [ownersCountL_nil, hiff t]
        omega
    · simp only [if_neg hrole]
      rw [dinsert_fresh s.positions _ hmsg]
      by_cases htk : t = pos.mt5_ticket
      · subst htk
        rw [dlookup_dinsert_self]
        rw [ownersCountL_append, ownersCountL_cons, hfresh]
        simp [DualPosition.all_tickets, DualPosition.all_positions, ownersCountL]
      · rw [dlookup_dinsert_ne _ _ htk]
        rw [ownersCountL_append, ownersCountL_cons]
        rw [if_neg (by
          simp [DualPosition.all_tickets, DualPosition.all_positions]
          exact fun hh => htk hh)]
        rw [ownersCountL_nil, hiff t]
        omega
  | some d =>
    obtain ⟨l1, l2, heq, hnk, hpop, hins⟩ := dlookup_decomp hd
    have hdown : pos.mt5_ticket ∉ d.all_tickets := by
      intro hmem
      have := (ownersCountL_pos_iff s.positions pos.mt5_ticket).mpr
        ⟨(pos.telegram_msg_id, d), by rw [heq]; simp, hmem⟩
      omega
    have hl1l2 : ownersCountL l1 pos.mt5_ticket + ownersCountL l2 pos.mt5_ticket = 0 := by
      have := hfresh
      rw [heq, ownersCountL_append, ownersCountL_cons, if_neg hdown] at this
      omega
    have hs := hslot d hd
    unfold BotState.add_position
    simp only [hd]
    by_cases hrole : role = TradeRole.runner
    · rw [if_pos hrole] at hs
      simp only [if_pos hrole]
      rw [hins]
      have htick : ∀ u, u ∈ ({ d with
          runner := some { pos with role := role } } : DualPosition).all_tickets ↔
          u ∈ d.all_tickets ∨ u = pos.mt5_ticket := by
        intro u
        simp [DualPosition.all_tickets, DualPosition.all_positions, hs]
      by_cases htk : t = pos.mt5_ticket
      · subst htk
        rw [dlookup_dinsert_self]
        rw [ownersCountL_append, ownersCountL_cons,
          if_pos ((htick _).mpr (Or.inr rfl))]
        simp only [Option.isSome_some, true_iff]
        omega
      · rw [dlookup_dinsert_ne _ _ htk]
        have hsame : (t ∈ ({ d with
            runner := some { pos with role := role } } : DualPosition).all_tickets)
            ↔ t ∈ d.all_tickets := by
          rw [htick t]
          simp [htk]
        have hcount : ownersCountL (l1 ++ (pos.telegram_msg_id,
            { d with runner := some { pos with role := role } }) :: l2) t =
            ownersCountL s.positions t := by
          rw [heq, ownersCountL_append, ownersCountL_append,
            ownersCountL_cons, ownersCountL_cons]
          by_cases hdt : t ∈ d.all_tickets
          · rw [if_pos ((hsame).mpr hdt), if_pos hdt]
          · rw [if_neg (fun hh => hdt (hsame.mp hh)), if_neg hdt]
        rw [hcount]
        exact hiff t
    · rw [if_neg hrole] at hs
      simp only [if_neg hrole]
      rw [hins]
      have htick : ∀ u, u ∈ ({ d with
          scalp := some { pos with role := role } } : DualPosition).all_tickets ↔
          u ∈ d.all_tickets ∨ u = pos.mt5_ticket := by
        intro u
        cases hr : d.runner <;>
          simp [DualPosition.all_tickets, DualPosition.all_positions, hs, hr,
            eq_comm, or_comm]
      by_cases htk : t = pos.mt5_ticket
      · subst htk
        rw [dlookup_dinsert_self]
        rw [ownersCountL_append, ownersCountL_cons,
          if_pos ((htick _).mpr (Or.inr rfl))]
        simp only [Option.isSome_some, true_iff]
        omega
      · rw [dlookup_dinsert_ne _ _ htk]
        have hsame : (t ∈ ({ d with
            scalp := some { pos with role := role } } : DualPosition).all_tickets)
            ↔ t ∈ d.all_tickets := by
          rw [htick t]
          simp [htk]
        have hcount : ownersCountL (l1 ++ (pos.telegram_msg_id,
            { d with scalp := some { pos with role := role } }) :: l2) t =
            ownersCountL s.positions t := by
          rw [heq, ownersCountL_append, ownersCountL_append,
            ownersCountL_cons, ownersCountL_cons]
          by_cases hdt : t ∈ d.all_tickets
          · rw [if_pos ((hsame).mpr hdt), if_pos hdt]
          · rw [if_neg (fun hh => hdt (hsame.mp hh)), if_neg hdt]
        rw [hcount]
        exact hiff t

theorem relabelDual_tickets (d : DualPosition) (nw u : Int) :
    u ∈ (DualPosition.mk nw
          (d.scalp.map (fun p => { p with telegram_msg_id := nw }))
          (d.runner.map (fun p => { p with telegram_msg_id := nw }))).all_tickets
      ↔ u ∈ d.all_tickets := by
  cases hsc : d.scalp <;> cases hr : d.runner <;>
    simp [DualPosition.all_tickets, DualPosition.all_positions, hsc, hr]

theorem reassign_keeps_index_iff (s : BotState) (old_id new_id : Int)
    (hWF : WF s) (hnw : new_id ∉ dkeys s.positions) (t : Int) :
    (dlookup (s.reassign_position old_id new_id).ticket_to_msg_id t).isSome
        = true ↔
      ownersCountL (s.reassign_position old_id new_id).positions t = 1 := by
  obtain ⟨hnp, hni, hone, hiff⟩ := hWF
  cases hd : dlookup s.positions old_id with
  | none =>
    unfold BotState.reassign_position
    rw [hd]
    exact hiff t
  | some d =>
    obtain ⟨l1, l2, heq, hnk, hpop, hins⟩ := dlookup_decomp hd
    unfold BotState.reassign_position
    rw [hd]
    simp only [hpop]
    have hfresh2 : new_id ∉ dkeys (l1 ++ l2) := by
      intro hmem
      apply hnw
      rw [heq]
      simp only [dkeys, List.map_append, List.mem_append, List.map_cons,
        List.mem_cons] at hmem ⊢
      tauto
    rw [dinsert_fresh _ _ hfresh2]
    by_cases ht : t ∈ d.all_tickets
    · have hmem2 : ∃ p ∈ (DualPosition.mk new_id
          (d.scalp.map (fun p => { p with telegram_msg_id := new_id }))
          (d.runner.map (fun p =>
            { p with telegram_msg_id := new_id }))).all_positions,
          p.mt5_ticket = t :=
        (mem_all_tickets_iff _ t).mp ((relabelDual_tickets d new_id t).mpr ht)
      rw [dlookup_foldl_dinsert_mem _ _ _ _ hmem2]
      have hc1 : ownersCountL s.positions t = 1 := by
        have hge : 1 ≤ ownersCountL s.positions t :=
          (ownersCountL_pos_iff _ _).mpr ⟨(old_id, d), by rw [heq]; simp, ht⟩
        have := hone t
        omega
      have hl1l2 : ownersCountL l1 t + ownersCountL l2 t = 0 := by
        have := hc1
        rw [heq, ownersCountL_append, ownersCountL_cons, if_pos ht] at this
        omega
      rw [ownersCountL_append, ownersCountL_append, ownersCountL_cons,
        if_pos ((relabelDual_tickets d new_id t).mpr ht), ownersCountL_nil]
      simp only [Option.isSome_some, true_iff]
      omega
    · have hne2 : ∀ p ∈ (DualPosition.mk new_id
          (d.scalp.map (fun p => { p with telegram_msg_id := new_id }))
          (d.runner.map (fun p =>
            { p with telegram_msg_id := new_id }))).all_positions,
          p.mt5_ticket ≠ t := by
        intro p hp hpt
        exact ht ((relabelDual_tickets d new_id t).mp
          ((mem_all_tickets_iff _ t).mpr ⟨p, hp, hpt⟩))
      rw [dlookup_foldl_dinsert_ne _ _ _ _ hne2]
      rw [ownersCountL_append, ownersCountL_append, ownersCountL_cons,
        if_neg (fun hh => ht ((relabelDual_tickets d new_id t).mp hh)),
        ownersCountL_nil]
      have hc : ownersCountL l1 t + ownersCountL l2 t =
          ownersCountL s.positions t := by
        rw [heq, ownersCountL_append, ownersCountL_cons, if_neg ht]
        omega
      rw [hiff t]
      omega

theorem cleanup_keeps_index_iff (s : BotState) (hWF : WF s) (t : Int) :
    (dlookup (s.cleanup_old_records).ticket_to_msg_id t).isSome = true ↔
      ownersCountL (s.cleanup_old_records).positions t = 1 := by
  by_cases hlen : s.positions.length ≤ MAX_RECORDS
  · rw [cleanup_small s hlen]
    exact hWF.2.2.2 t
  · unfold BotState.cleanup_old_records
    rw [if_neg hlen]
    refine rebuildIdx_iff _ ?_ t
    intro u
    calc ownersCountL ((sortDesc s.positions).take MAX_RECORDS) u
        ≤ ownersCountL (sortDesc s.positions) u :=
          ownersCountL_sublist (List.take_sublist _ _) u
      _ = ownersCountL s.positions u :=
          ownersCountL_perm (sortDesc_perm s.positions) u
      _ ≤ 1 := hWF.2.2.1 u

/-- Claim C5 counterexample: `add_position` that overwrites the scalp
slot of message 5 (ticket 1) with a new leg carrying ticket 2 leaves
ticket 1 as a key of the reverse index although no stored DualPosition
owns it any more. -/
theorem C5_counterexample :
    (dlookup ((({} : BotState).add_position
        (mkLeg 5 1 .buy 2000 (some 1990) [2010] .opened [] .scalp)
        .scalp).add_position
        (mkLeg 5 2 .buy 2000 (some 1990) [2010] .opened [] .scalp)
        .scalp).ticket_to_msg_id 1).isSome = true ∧
    ownersCountL ((({} : BotState).add_position
        (mkLeg 5 1 .buy 2000 (some 1990) [2010] .opened [] .scalp)
        .scalp).add_position
        (mkLeg 5 2 .buy 2000 (some 1990) [2010] .opened [] .scalp)
        .scalp).positions 1 = 0 := by
  constructor <;> decide

/-- Claim C5 as amended: starting from a well-formed store (duplicate-free
dict keys, single ownership, and the reverse-index iff), the iff "a
ticket is a reverse-index key exactly when it is owned by exactly one
stored DualPosition" is preserved by remove_position, by reassign_position
to an untracked id, by add_position when the new leg's ticket is fresh
and the written role slot is empty, and by the cleanup; and any reverse
index rebuilt from a positions list (cleanup beyond the retention bound,
v2 load, v1 migration) satisfies the iff outright under single
ownership. Overwriting an occupied slot with a different ticket breaks
the iff by leaving the replaced ticket as a stale key. -/
theorem C5_index_invariant :
    (∀ (s : BotState) (m : Int), WF s → ∀ t,
      (dlookup (s.remove_position m).ticket_to_msg_id t).isSome = true ↔
        ownersCountL (s.remove_position m).positions t = 1) ∧
    (∀ (s : BotState) (pos : TrackedPosition) (role : TradeRole), WF s →
      ownersCountL s.positions pos.mt5_ticket = 0 →
      (∀ d, dlookup s.positions pos.telegram_msg_id = some d →
        (if role = TradeRole.runner then d.runner = none else d.scalp = none)) →
      ∀ t, (dlookup (s.add_position pos role).ticket_to_msg_id t).isSome = true ↔
        ownersCountL (s.add_position pos role).positions t = 1) ∧
    (∀ (s : BotState) (old_id new_id : Int), WF s →
      new_id ∉ dkeys s.positions →
      ∀ t, (dlookup (s.reassign_position old_id new_id).ticket_to_msg_id t).isSome
          = true ↔
        ownersCountL (s.reassign_position old_id new_id).positions t = 1) ∧
    (∀ s : BotState, WF s → ∀ t,
      (dlookup (s.cleanup_old_records).ticket_to_msg_id t).isSome = true ↔
        ownersCountL (s.cleanup_old_records).positions t = 1) ∧
    (∀ ps : List (Int × DualPosition), OwnOnceL ps → ∀ t,
      (dlookup (rebuildIdx ps) t).isSome = true ↔ ownersCountL ps t = 1) :=
  ⟨remove_keeps_index_iff, add_keeps_index_iff, reassign_keeps_index_iff,
    cleanup_keeps_index_iff, rebuildIdx_iff⟩

/-- Witness for C5: removing the only stored dual keeps the reverse
index in step with ownership (both sides of the iff turn false). -/
theorem C5_index_invariant_witness :
    (dlookup ((({} : BotState).add_position
        (mkLeg 5 1 .buy 2000 (some 1990) [2010] .opened [] .scalp)
        .scalp).remove_position 5).ticket_to_msg_id 1).isSome = true ↔
      ownersCountL ((({} : BotState).add_position
        (mkLeg 5 1 .buy 2000 (some 1990) [2010] .opened [] .scalp)
        .scalp).remove_position 5).positions 1 = 1 := by
  have hcount : ∀ t : Int, t ≠ 1 →
      ownersCountL ((({} : BotState).add_position
        (mkLeg 5 1 .buy 2000 (some 1990) [2010] .opened [] .scalp)
        .scalp)).positions t = 0 := by
    intro t h
    unfold BotState.add_position ownersCountL
    simp [dinsert, dlookup, List.filter_cons, DualPosition.all_tickets,
      DualPosition.all_positions, mkLeg, h, Ne.symm h]
  have hlook : ∀ t : Int, t ≠ 1 →
      (dlookup ((({} : BotState).add_position
        (mkLeg 5 1 .buy 2000 (some 1990) [2010] .opened [] .scalp)
        .scalp)).ticket_to_msg_id t).isSome = false := by
    intro t h
    unfold BotState.add_position
    simp [dinsert, dlookup, mkLeg, show ¬((1 : Int) = t) from fun hc => h hc.symm]
  refine C5_index_invariant.1 _ 5 ⟨by decide, by decide, ?_, ?_⟩ 1
  · intro t
    by_cases h : t = 1
    · subst h
      decide
    · rw [hcount t h]
      omega
  · intro t
    by_cases h : t = 1
    · subst h
      decide
    · rw [hcount t h] at *
      rw [hlook t h]
      simp

theorem asOptQ_optQJson (o : Option ℚ) : asOptQ (optQJson o) = .ok o := by
  cases o <;> rfl

theorem asOptInt_optIntJson (o : Option Int) :
    asOptInt (optIntJson o) = .ok o := by
  cases o <;> rfl

theorem qListD_map (l : List ℚ) : qListD (l.map Json.jnum) = .ok l := by
  induction l with
  | nil => rfl
  | cons x xs ih =>
    simp only [List.map_cons, qListD, asQ, ih]
    rfl

theorem iListD_map (l : List Int) : iListD (l.map Json.jint) = .ok l := by
  induction l with
  | nil => rfl
  | cons x xs ih =>
    simp only [List.map_cons, iListD, asInt, ih]
    rfl

theorem ofValue_value_order (t : OrderType) :
    OrderType.ofValue (.jstr t.value) = .ok t := by
  cases t <;> rfl

theorem ofValue_value_status (st : PositionStatus) :
    PositionStatus.ofValue (.jstr st.value) = .ok st := by
  cases st <;> rfl

theorem roleOfValue_value (r : TradeRole) :
    roleOfValue (.jstr r.value) = r := by
  cases r <;> rfl

theorem tracked_from_to (p : TrackedPosition) :
    TrackedPosition.from_dict p.to_dict = .ok p := by
  have e1 : jGetD p.to_dict "role" (.jstr "single") = .ok (.jstr p.role.value) := rfl
  have e2 : jGetD p.to_dict "stop_loss" .null = .ok (optQJson p.stop_loss) := rfl
  have e3 : jGetD p.to_dict "take_profits" (.jarr []) =
      .ok (.jarr (p.take_profits.map Json.jnum)) := rfl
  have e4 : jGetS p.to_dict "telegram_msg_id" = .ok (.jint p.telegram_msg_id) := rfl
  have e5 : jGetS p.to_dict "mt5_ticket" = .ok (.jint p.mt5_ticket) := rfl
  have e6 : jGetS p.to_dict "symbol" = .ok (.jstr p.symbol) := rfl
  have e7 : jGetS p.to_dict "order_type" = .ok (.jstr p.order_type.value) := rfl
  have e8 : jGetS p.to_dict "entry_price" = .ok (.jnum p.entry_price) := rfl
  have e9 : jGetS p.to_dict "lot_size" = .ok (.jnum p.lot_size) := rfl
  have e10 : jGetS p.to_dict "opened_at" = .ok (.jint p.opened_at) := rfl
  have e11 : jGetS p.to_dict "is_complete" = .ok (.jbool p.is_complete) := rfl
  have e12 : jGetS p.to_dict "status" = .ok (.jstr p.status.value) := rfl
  have e13 : jGetD p.to_dict "tps_hit" (.jarr []) =
      .ok (.jarr (p.tps_hit.map Json.jint)) := rfl
  have e14 : jGetD p.to_dict "original_message_text" (.jstr "") =
      .ok (.jstr p.original_message_text) := rfl
  have e15 : jGetD p.to_dict "original_stop_loss" (optQJson p.stop_loss) =
      .ok (optQJson p.original_stop_loss) := rfl
  have e16 : jGetD p.to_dict "original_take_profits"
      (.jarr (p.take_profits.map Json.jnum)) =
      .ok (.jarr (p.original_take_profits.map Json.jnum)) := rfl
  revert e1 e2 e3 e4 e5 e6 e7 e8 e9 e10 e11 e12 e13 e14 e15 e16
  generalize p.to_dict = j
  intro e1 e2 e3 e4 e5 e6 e7 e8 e9 e10 e11 e12 e13 e14 e15 e16
  unfold TrackedPosition.from_dict
  rw [e1, e2, e3]
  simp only [Bind.bind, Except.bind, asOptQ_optQJson, asQList, qListD_map,
    roleOfValue_value]
  rw [e4, e5, e6, e7, e8, e9, e10, e11, e12, e13, e14, e15, e16]
  simp only [Bind.bind, Except.bind, asInt, asStr, asBool, fromIso, asQ,
    asIntList, iListD_map, asQList, qListD_map, asOptQ_optQJson,
    ofValue_value_order, ofValue_value_status, pure, Except.pure]

theorem jTruthy_tracked_to_dict (p : TrackedPosition) :
    jTruthy p.to_dict = true := rfl

theorem dual_from_to (d : DualPosition) :
    DualPosition.from_dict d.to_dict = .ok d := by
  obtain ⟨mid, sc, ru⟩ := d
  cases sc with
  | none =>
    cases ru with
    | none => rfl
    | some q =>
      simp [DualPosition.from_dict, DualPosition.to_dict, jGetS, jGetD, jfind,
        jTruthy_tracked_to_dict, jTruthy, tracked_from_to, Bind.bind,
        Except.bind, asInt, Except.map, pure, Except.pure]
      exact jTruthy_tracked_to_dict q
  | some p =>
    cases ru with
    | none =>
      simp [DualPosition.from_dict, DualPosition.to_dict, jGetS, jGetD, jfind,
        jTruthy_tracked_to_dict, jTruthy, tracked_from_to, Bind.bind,
        Except.bind, asInt, Except.map, pure, Except.pure]
      exact jTruthy_tracked_to_dict p
    | some q =>
      simp [DualPosition.from_dict, DualPosition.to_dict, jGetS, jGetD, jfind,
        jTruthy_tracked_to_dict, jTruthy, tracked_from_to, Bind.bind,
        Except.bind, asInt, Except.map, pure, Except.pure]
      have hp := jTruthy_tracked_to_dict p
      have hq := jTruthy_tracked_to_dict q
      simp only [jTruthy] at hp hq
      rw [hp, hq]
      simp

theorem load_v2_loop_spec (ps : List (Int × DualPosition)) :
    ∀ (s : BotState),
    (∀ k ∈ dkeys ps, k ∉ dkeys s.positions) → (dkeys ps).Nodup →
    load_v2_loop (encodePs ps) s = .ok
      { positions := s.positions ++ ps,
        ticket_to_msg_id := idxFold ps s.ticket_to_msg_id,
        last_signal_msg_id := s.last_signal_msg_id } := by
  induction ps with
  | nil =>
    intro s _ _
    simp [encodePs, load_v2_loop, idxFold]
  | cons kv rest ih =>
    intro s hfresh hnd
    obtain ⟨k, d⟩ := kv
    have hk : k ∉ dkeys s.positions := hfresh k (by simp [dkeys])
    have hfresh2 : ∀ k2 ∈ dkeys rest, k2 ∉ dkeys (s.positions ++ [(k, d)]) := by
      intro k2 hk2 hmem
      simp only [dkeys, List.map_append, List.mem_append, List.map_cons,
        List.mem_cons] at hmem
      rcases hmem with hmem | hmem
      · refine hfresh k2 ?_ (by simpa [dkeys] using hmem)
        simp only [dkeys, List.map_cons, List.mem_cons]
        exact Or.inr (by simpa [dkeys] using hk2)
      · simp only [List.map_nil, List.mem_singleton, List.not_mem_nil,
          or_false] at hmem
        have : k ∉ dkeys rest := by
          have := hnd
          simp only [dkeys, List.map_cons, List.nodup_cons] at this
          exact fun hc => this.1 (by simpa [dkeys] using hc)
        exact this (hmem ▸ hk2)
    have hnd2 : (dkeys rest).Nodup := by
      have := hnd
      simp only [dkeys, List.map_cons, List.nodup_cons] at this
      exact this.2
    have hstep : encodePs ((k, d) :: rest) =
        (JKey.iKey k, d.to_dict) :: encodePs rest := rfl
    rw [hstep]
    simp only [load_v2_loop, pyIntOfKey, dual_from_to, Bind.bind, Except.bind]
    rw [dinsert_fresh s.positions d hk]
    rw [ih { positions := s.positions ++ [(k, d)],
             ticket_to_msg_id := d.all_positions.foldl
               (fun idx p => dinsert idx p.mt5_ticket k) s.ticket_to_msg_id,
             last_signal_msg_id := s.last_signal_msg_id } hfresh2 hnd2]
    simp [idxFold, List.append_assoc]

theorem all_positions_from_single_scalp (p : TrackedPosition)
    (h : p.role ≠ TradeRole.runner) :
    (DualPosition.from_single p).all_positions = [p] := by
  unfold DualPosition.from_single
  rw [if_neg h]
  simp [DualPosition.all_positions]

theorem migrate_v1_loop_spec (ps : List (Int × TrackedPosition)) :
    ∀ (s : BotState),
    (∀ k ∈ dkeys ps, k ∉ dkeys s.positions) → (dkeys ps).Nodup →
    migrate_v1_loop (encodeV1 ps) s = .ok
      { positions := s.positions ++ migratedPs ps,
        ticket_to_msg_id := idxFold (migratedPs ps) s.ticket_to_msg_id,
        last_signal_msg_id := s.last_signal_msg_id } := by
  induction ps with
  | nil =>
    intro s _ _
    simp [encodeV1, migrate_v1_loop, migratedPs, idxFold]
  | cons kv rest ih =>
    intro s hfresh hnd
    obtain ⟨k, p⟩ := kv
    have hk : k ∉ dkeys s.positions := hfresh k (by simp [dkeys])
    have hfresh2 : ∀ k2 ∈ dkeys rest, k2 ∉ dkeys (s.positions ++
        [(k, DualPosition.from_single { p with role := TradeRole.single })]) := by
      intro k2 hk2 hmem
      simp only [dkeys, List.map_append, List.mem_append, List.map_cons,
        List.mem_cons] at hmem
      rcases hmem with hmem | hmem
      · refine hfresh k2 ?_ (by simpa [dkeys] using hmem)
        simp only [dkeys, List.map_cons, List.mem_cons]
        exact Or.inr (by simpa [dkeys] using hk2)
      · simp only [List.map_nil, List.mem_singleton, List.not_mem_nil,
          or_false] at hmem
        have : k ∉ dkeys rest := by
          have := hnd
          simp only [dkeys, List.map_cons, List.nodup_cons] at this
          exact fun hc => this.1 (by simpa [dkeys] using hc)
        exact this (hmem ▸ hk2)
    have hnd2 : (dkeys rest).Nodup := by
      have := hnd
      simp only [dkeys, List.map_cons, List.nodup_cons] at this
      exact this.2
    have hstep : encodeV1 ((k, p) :: rest) =
        (JKey.iKey k, p.to_dict) :: encodeV1 rest := rfl
    rw [hstep]
    simp only [migrate_v1_loop, pyIntOfKey, tracked_from_to, Bind.bind,
      Except.bind]
    rw [dinsert_fresh s.positions _ hk]
    rw [ih { positions := s.positions ++
               [(k, DualPosition.from_single { p with role := TradeRole.single })],
             ticket_to_msg_id := dinsert s.ticket_to_msg_id
               ({ p with role := TradeRole.single } : TrackedPosition).mt5_ticket k,
             last_signal_msg_id := s.last_signal_msg_id } hfresh2 hnd2]
    have hone : idxFold (migratedPs ((k, p) :: rest)) s.ticket_to_msg_id =
        idxFold (migratedPs rest)
          (dinsert s.ticket_to_msg_id
            ({ p with role := TradeRole.single } : TrackedPosition).mt5_ticket k) := by
      have hstep2 : migratedPs ((k, p) :: rest) =
          (k, DualPosition.from_single { p with role := TradeRole.single }) ::
            migratedPs rest := rfl
      rw [hstep2]
      unfold idxFold
      rw [List.foldl_cons]
      rw [all_positions_from_single_scalp _ (by simp)]
      rfl
    rw [hone]
    simp [migratedPs, List.append_assoc]

theorem rebuildIdx_eq_idxFold (ps : List (Int × DualPosition)) :
    rebuildIdx ps = idxFold ps [] := rfl

theorem load_doc_save_dump (s : BotState) (now : Int)
    (hnd : (dkeys s.positions).Nodup) :
    BotState.load (.doc (s.save_dump now)) emptiedState = .ok
      { positions := s.positions,
        ticket_to_msg_id := rebuildIdx s.positions,
        last_signal_msg_id := s.last_signal_msg_id } := by
  have h1 : jGetD (s.save_dump now) "version" (.jint 1) = .ok (.jint 3) := rfl
  have h2 : jGetD (s.save_dump now) "last_signal_msg_id" .null =
      .ok (optIntJson s.last_signal_msg_id) := by
    cases hl : s.last_signal_msg_id <;>
      simp [BotState.save_dump, jGetD, jfind, hl, optIntJson]
  have h3 : jGetD (s.save_dump now) "positions" (.jobj []) =
      .ok (.jobj (encodePs s.positions)) := rfl
  have hloop := load_v2_loop_spec s.positions
    { positions := [], ticket_to_msg_id := [],
      last_signal_msg_id := s.last_signal_msg_id }
    (by intro k _ hm; simp [dkeys] at hm) hnd
  have hv : jeqInt1 (Json.jint 3) = false := rfl
  have hbody : BotState.load_body (s.save_dump now) emptiedState = .ok
      { positions := s.positions,
        ticket_to_msg_id := rebuildIdx s.positions,
        last_signal_msg_id := s.last_signal_msg_id } := by
    simp only [BotState.load_body, h1, h2, asOptInt_optIntJson, Bind.bind,
      Except.bind, hv, Bool.false_eq_true, if_false, emptiedState]
    simp only [BotState.load_v2, h3, Bind.bind, Except.bind]
    rw [rebuildIdx_eq_idxFold]
    simpa using hloop
  simp only [BotState.load, hbody]

theorem dkeys_migratedPs (ps : List (Int × TrackedPosition)) :
    dkeys (migratedPs ps) = dkeys ps := by
  simp [dkeys, migratedPs]

theorem load_doc_v1_dump (ps : List (Int × TrackedPosition)) (last : Option Int)
    (hnd : (dkeys ps).Nodup) :
    BotState.load (.doc (v1_dump ps last)) emptiedState =
      .ok (migratedState ps last) := by
  have h1 : jGetD (v1_dump ps last) "version" (.jint 1) = .ok (.jint 1) := rfl
  have h2 : jGetD (v1_dump ps last) "last_signal_msg_id" .null =
      .ok (optIntJson last) := rfl
  have h3 : jGetD (v1_dump ps last) "positions" (.jobj []) =
      .ok (.jobj (encodeV1 ps)) := rfl
  have hloop := migrate_v1_loop_spec ps
    { positions := [], ticket_to_msg_id := [], last_signal_msg_id := last }
    (by intro k _ hm; simp [dkeys] at hm) hnd
  have hv : jeqInt1 (Json.jint 1) = true := rfl
  have hidx : rebuildIdx (migratedPs ps) = idxFold (migratedPs ps) [] := rfl
  have hbody : BotState.load_body (v1_dump ps last) emptiedState =
      .ok (migratedState ps last) := by
    simp only [BotState.load_body, h1, h2, asOptInt_optIntJson, Bind.bind,
      Except.bind, hv, if_true, emptiedState]
    simp only [BotState.migrate_v1_to_v2, h3, Bind.bind, Except.bind]
    rw [hloop]
    simp [migratedState, hidx]
  simp only [BotState.load, hbody]

/-- **C6 (counterexample).** The reachable stale-ticket state `c6Stale`
(two `add_position` calls writing tickets 1 then 2 into the scalp slot of
message 5) holds one dual (under the retention bound) and `save` leaves it
unchanged, yet its reverse index lists both tickets while `save` followed
by `load` into a fresh store yields the same positions map and last-signal
pointer with the rebuilt index `[(2, 5)]`: the reverse index is NOT
reproduced, refuting the claimed identical round trip. -/
theorem C6_counterexample :
    c6Stale.positions.length ≤ MAX_RECORDS ∧
    (c6Stale.save 100).1 = c6Stale ∧
    c6Stale.ticket_to_msg_id = [(1, 5), (2, 5)] ∧
    BotState.load (.doc (c6Stale.save 100).2) emptiedState = .ok
      { positions := c6Stale.positions,
        ticket_to_msg_id := [(2, 5)],
        last_signal_msg_id := c6Stale.last_signal_msg_id } :=
  ⟨by decide, rfl, rfl, rfl⟩

/-- **C6.** Amended round trip: for any state holding at most MAX_RECORDS
duals under duplicate-free keys, `save` leaves the in-memory state
unchanged, and `save` followed by `load` into a fresh store reproduces the
positions map and the last-signal pointer exactly while the reverse index
comes back as the rebuild from the positions map - so the round trip is the
identity precisely when the stored index already equals the rebuilt one
(as in every well-formed state, but not in the stale-ticket state of the
counterexample). A version-1 snapshot with duplicate-free keys loads to
the migrated state, whose index is rebuilt by construction, so the freshly
migrated state round-trips exactly. -/
theorem C6_round_trip :
    (∀ (s : BotState) (now : Int),
      s.positions.length ≤ MAX_RECORDS →
      (dkeys s.positions).Nodup →
      (s.save now).1 = s ∧
      BotState.load (.doc (s.save now).2) emptiedState = .ok
        { positions := s.positions,
          ticket_to_msg_id := rebuildIdx s.positions,
          last_signal_msg_id := s.last_signal_msg_id } ∧
      (s.ticket_to_msg_id = rebuildIdx s.positions →
        BotState.load (.doc (s.save now).2) emptiedState = .ok s)) ∧
    (∀ (ps : List (Int × TrackedPosition)) (last : Option Int) (now : Int),
      (dkeys ps).Nodup → ps.length ≤ MAX_RECORDS →
      BotState.load (.doc (v1_dump ps last)) emptiedState =
        .ok (migratedState ps last) ∧
      BotState.load (.doc ((migratedState ps last).save now).2) emptiedState =
        .ok (migratedState ps last)) := by
  constructor
  · intro s now hlen hnd
    have hclean : s.cleanup_old_records = s := by
      simp [BotState.cleanup_old_records, hlen]
    have hsave1 : (s.save now).1 = s := by
      simp [BotState.save, hclean]
    have hsave2 : (s.save now).2 = s.save_dump now := by
      simp [BotState.save, hclean]
    have h2 := load_doc_save_dump s now hnd
    refine ⟨hsave1, by rw [hsave2]; exact h2, ?_⟩
    intro hidx
    rw [hsave2, h2, ← hidx]
  · intro ps last now hnd hlen
    have h1 := load_doc_v1_dump ps last hnd
    have hlen2 : (migratedState ps last).positions.length ≤ MAX_RECORDS := by
      simpa [migratedState, migratedPs] using hlen
    have hnd2 : (dkeys (migratedState ps last).positions).Nodup := by
      have := dkeys_migratedPs ps
      simp only [migratedState]
      rw [this]
      exact hnd
    have hclean : (migratedState ps last).cleanup_old_records =
        migratedState ps last := by
      simp [BotState.cleanup_old_records, hlen2]
    have hsave2 : ((migratedState ps last).save now).2 =
        (migratedState ps last).save_dump now := by
      simp [BotState.save, hclean]
    have h2 := load_doc_save_dump (migratedState ps last) now hnd2
    refine ⟨h1, ?_⟩
    rw [hsave2, h2]
    rfl

/-- **C6 (witness).** The round-trip theorem instantiated: the well-formed
one-dual state `c6Wf` round-trips exactly, and the concrete version-1
snapshot `c6V1` loads to its migrated state. -/
theorem C6_round_trip_witness :
    BotState.load (.doc (c6Wf.save 100).2) emptiedState = .ok c6Wf ∧
    BotState.load (.doc (v1_dump c6V1 (some 7))) emptiedState =
      .ok (migratedState c6V1 (some 7)) :=
  ⟨(C6_round_trip.1 c6Wf 100 (by decide) (by decide)).2.2 (by decide),
   (C6_round_trip.2 c6V1 (some 7) 100 (by decide) (by decide)).1⟩
